import Mathlib

/-!
Verification of the AISCRA supply-chain risk pipeline (Python backend).

Shallow embedding of the modules referenced by the claims:
  * `src/backend/src/risk_engine/scoring.py`          (risk scoring)
  * `src/backend/src/risk_engine/alert_generator.py`  (alert gating and creation)
  * `src/backend/src/risk_engine/graph_propagation.py` (BFS risk propagation)
  * `src/backend/src/risk_engine/workers.py`          (extraction handler effects)
  * `src/backend/src/ingestion/deduplicator.py`       (MD5 article fingerprints)
  * `src/backend/src/recommender/supplier_finder.py`  (alternate supplier ranking)

Python floats are embedded as rationals (ℚ); Python `round(x, n)` is embedded
as round-half-to-even on exact rationals (`pyRound`).  Python dictionaries with
optional keys are embedded as structures with `Option` fields, with `.get`
defaults applied exactly where the source applies them.
-/

namespace AISCRA

/-- Embedding of Python `round` to an integer: round half to even on ℚ. -/
def pyRnd (q : ℚ) : ℤ :=
  if q - ⌊q⌋ < 1/2 then ⌊q⌋
  else if 1/2 < q - ⌊q⌋ then ⌊q⌋ + 1
  else if ⌊q⌋ % 2 = 0 then ⌊q⌋ else ⌊q⌋ + 1

/-- Embedding of Python `round(q, n)` on exact rationals. -/
def pyRound (q : ℚ) (n : ℕ) : ℚ := (pyRnd (q * 10 ^ n) : ℚ) / 10 ^ n

theorem floor_le_pyRnd (q : ℚ) : ⌊q⌋ ≤ pyRnd q := by
  unfold pyRnd
  split_ifs <;> omega

theorem pyRnd_le_of_le {q : ℚ} {c : ℤ} (h : q ≤ (c : ℚ)) : pyRnd q ≤ c := by
  have hfc : ⌊q⌋ ≤ c := by
    have := Int.floor_le_floor h
    simpa using this
  unfold pyRnd
  have hfl : (⌊q⌋ : ℚ) ≤ q := Int.floor_le q
  split_ifs with h1 h2 h3
  · exact hfc
  · -- here 1/2 < q - ⌊q⌋, so q ≥ ⌊q⌋ + 1/2; if ⌊q⌋ = c then q > c, contradiction
    rcases lt_or_eq_of_le hfc with h4 | h4
    · omega
    · exfalso
      rw [h4] at h2
      linarith
  · exact hfc
  · rcases lt_or_eq_of_le hfc with h4 | h4
    · omega
    · exfalso
      rw [h4] at h1
      linarith

theorem le_pyRnd_of_le {q : ℚ} {c : ℤ} (h : (c : ℚ) ≤ q) : c ≤ pyRnd q := by
  have : c ≤ ⌊q⌋ := Int.le_floor.2 h
  have := floor_le_pyRnd q
  omega

theorem le_pyRnd_of_lt {q : ℚ} {c : ℤ} (h : (c : ℚ) < q) : c ≤ pyRnd q :=
  le_pyRnd_of_le (le_of_lt h)

theorem pyRnd_le_add_half (q : ℚ) : (pyRnd q : ℚ) ≤ q + 1/2 := by
  unfold pyRnd
  have hfl : (⌊q⌋ : ℚ) ≤ q := Int.floor_le q
  split_ifs with h1 h2 h3 <;> push_cast <;> linarith

theorem sub_half_le_pyRnd (q : ℚ) : q - 1/2 ≤ (pyRnd q : ℚ) := by
  unfold pyRnd
  have hfl : (⌊q⌋ : ℚ) ≤ q := Int.floor_le q
  have hlt : q < (⌊q⌋ : ℚ) + 1 := Int.lt_floor_add_one q
  split_ifs with h1 h2 h3 <;> push_cast <;> linarith

theorem pyRound_le_of_le {q : ℚ} {c : ℤ} (n : ℕ) (h : q ≤ (c : ℚ)) :
    pyRound q n ≤ (c : ℚ) := by
  unfold pyRound
  have hp : (0 : ℚ) < 10 ^ n := by positivity
  rw [div_le_iff hp]
  have hmul : q * 10 ^ n ≤ ((c * 10 ^ n : ℤ) : ℚ) := by
    push_cast
    exact mul_le_mul_of_nonneg_right h (le_of_lt hp)
  have := pyRnd_le_of_le hmul
  calc (pyRnd (q * 10 ^ n) : ℚ) ≤ ((c * 10 ^ n : ℤ) : ℚ) := by exact_mod_cast this
    _ = (c : ℚ) * 10 ^ n := by push_cast; ring

theorem le_pyRound_of_le {q : ℚ} {c : ℤ} (n : ℕ) (h : (c : ℚ) ≤ q) :
    (c : ℚ) ≤ pyRound q n := by
  unfold pyRound
  have hp : (0 : ℚ) < 10 ^ n := by positivity
  rw [le_div_iff hp]
  have hmul : ((c * 10 ^ n : ℤ) : ℚ) ≤ q * 10 ^ n := by
    push_cast
    exact mul_le_mul_of_nonneg_right h (le_of_lt hp)
  have := le_pyRnd_of_le hmul
  calc (c : ℚ) * 10 ^ n = ((c * 10 ^ n : ℤ) : ℚ) := by push_cast; ring
    _ ≤ (pyRnd (q * 10 ^ n) : ℚ) := by exact_mod_cast this

/-- Rounding to two decimals moves a value by at most 1/200. -/
theorem pyRound_two_le (q : ℚ) : pyRound q 2 ≤ q + 1/200 := by
  unfold pyRound
  have h := pyRnd_le_add_half (q * 10 ^ 2)
  norm_num at h ⊢
  linarith

theorem le_pyRound_two (q : ℚ) : q - 1/200 ≤ pyRound q 2 := by
  unfold pyRound
  have h := sub_half_le_pyRnd (q * 10 ^ 2)
  norm_num at h ⊢
  linarith

/-- Values that are exact multiples of 1/100 are not decreased past by
rounding a larger value to two decimals. -/
theorem pyRound_two_ge_of_lt {v q : ℚ} {k : ℤ} (hk : v = (k : ℚ) / 100)
    (h : v < q) : v ≤ pyRound q 2 := by
  have hpow : (10 : ℚ) ^ 2 = 100 := by norm_num
  rw [hk] at h
  have hk100 : (k : ℚ) ≤ q * 10 ^ 2 := by rw [hpow]; linarith
  have h2 : (k : ℚ) ≤ (pyRnd (q * 10 ^ 2) : ℚ) := by
    exact_mod_cast le_pyRnd_of_le hk100
  rw [pyRound, hk, hpow]
  rw [hpow] at h2
  linarith

/-! ## Risk scoring (`src/backend/src/risk_engine/scoring.py`) -/

/-- Python value sitting in the `is_confirmed` field: a string or a bool. -/
inductive ConfVal where
  | str (s : String)
  | bool (b : Bool)
deriving Repr, DecidableEq

/-- Fields of the `risk_data` dict read by `calculate_risk_score`. -/
structure RiskData where
  severity : Option String
  is_confirmed : Option ConfVal
  time_horizon : Option String
deriving Repr, DecidableEq

/-- Fields of the `supplier` dict read by `calculate_risk_score`. -/
structure ScoringSupplier where
  supply_volume_pct : Option ℚ
  supplies : Option (List String)
  is_single_source : Option Bool
deriving Repr, DecidableEq

/-- Entry of `company_profile["suppliers"]` as read by
`count_alternate_suppliers`. -/
structure ProfileSupplier where
  supplies : Option (List String)
  status : Option String
deriving Repr, DecidableEq

/-- Fields of the `company_profile` dict read by `calculate_risk_score`. -/
structure CompanyProfile where
  material_criticality : List (String × ℚ)
  inventory_days : List (String × ℚ)
  suppliers : Option (List ProfileSupplier)
deriving Repr, DecidableEq

/-- Python `dict.get(key, default)` over an association list. -/
def dictGet (m : List (String × ℚ)) (k : String) (d : ℚ) : ℚ :=
  match m.find? (fun p => p.1 = k) with
  | some p => p.2
  | none => d

/-- Severity-to-probability map `prob_map.get(severity, 0.55)`. -/
def prob_map (sev : String) : ℚ :=
  if sev = "critical" then 19/20
  else if sev = "high" then 4/5
  else if sev = "medium" then 11/20
  else if sev = "low" then 1/4
  else 11/20

/-- Probability component: severity base adjusted by confirmation status. -/
def probability (rd : RiskData) : ℚ :=
  if rd.is_confirmed.getD (ConfVal.str "uncertain") = ConfVal.str "uncertain" then
    prob_map (rd.severity.getD "medium") * (7/10)
  else if rd.is_confirmed.getD (ConfVal.str "uncertain") = ConfVal.str "false" ∨
      rd.is_confirmed.getD (ConfVal.str "uncertain") = ConfVal.bool false then
    prob_map (rd.severity.getD "medium") * (3/10)
  else prob_map (rd.severity.getD "medium")

/-- Material read from the supplier: `supplier.get("supplies", ["unknown"])[0]`. -/
def supplierMaterial (s : ScoringSupplier) : String :=
  (s.supplies.getD ["unknown"]).headD "unknown"

/-- Dependency on the supplier: `supply_volume_pct / 100` (default 50). -/
def dependencyFrac (s : ScoringSupplier) : ℚ :=
  (s.supply_volume_pct.getD 50) / 100

/-- Impact before clamping: `dependency * (criticality/10) * buffer * 10`. -/
def impactRaw (s : ScoringSupplier) (cp : CompanyProfile) : ℚ :=
  let material := supplierMaterial s
  let crit := dictGet cp.material_criticality material 5
  let inv := dictGet cp.inventory_days material 0
  let buffer := 1 / (1 + inv / 30)
  dependencyFrac s * (crit / 10) * buffer * 10

/-- Impact clamped into [1, 10]. -/
def impact (s : ScoringSupplier) (cp : CompanyProfile) : ℚ :=
  max 1 (min 10 (impactRaw s cp))

/-- Urgency from `urgency_map.get(time_horizon, 1.0)` (default key "weeks"). -/
def urgency (rd : RiskData) : ℚ :=
  let th := rd.time_horizon.getD "weeks"
  if th = "immediate" then 2
  else if th = "days" then 3/2
  else if th = "weeks" then 1
  else if th = "months" then 1/2
  else 1

/-- Python `str.lower()` over the code points (character-wise ASCII lowering,
written so that the kernel can evaluate it). -/
def pyLower (s : String) : String := ⟨s.data.map Char.toLower⟩

/-- Count of alternate suppliers offering the material, minus the affected one. -/
def count_alternate_suppliers (material : String) (cp : CompanyProfile) : ℕ :=
  match cp.suppliers with
  | none => 0
  | some l =>
      let count := (l.filter (fun sup =>
        (((sup.supplies.getD []).map pyLower).contains (pyLower material)) &&
        ((sup.status.getD "active") ∈ ["active", "alternate", "pre_qualified"]))).length
      count - 1

/-- Mitigation component: `1 + min(0.2 * num_alternates, 1)`, forced to 0.5
for single-source suppliers. -/
def mitigation (s : ScoringSupplier) (cp : CompanyProfile) : ℚ :=
  let num := count_alternate_suppliers (supplierMaterial s) cp
  let base := 1 + min ((num : ℚ) * (1/5)) 1
  if s.is_single_source.getD false then 1/2 else base

/-- Final score before rounding: `probability * impact * urgency / mitigation`. -/
def rawScore (rd : RiskData) (s : ScoringSupplier) (cp : CompanyProfile) : ℚ :=
  probability rd * impact s cp * urgency rd / mitigation s cp

/-- Band mapping `score_to_band` from the source. -/
def score_to_band (score : ℚ) : String :=
  if 10 ≤ score then "critical"
  else if 6 ≤ score then "high"
  else if 3 ≤ score then "medium"
  else "low"

/-- Component breakdown returned by `calculate_risk_score`. -/
structure ScoreComponents where
  probability : ℚ
  impact : ℚ
  urgency : ℚ
  mitigation : ℚ
deriving Repr, DecidableEq

/-- Result dictionary of `calculate_risk_score`. -/
structure ScoreResult where
  risk_score : ℚ
  severity_band : String
  components : ScoreComponents
deriving Repr, DecidableEq

/-- Embedding of `calculate_risk_score(risk_data, supplier, company_profile)`. -/
def calculate_risk_score (rd : RiskData) (s : ScoringSupplier)
    (cp : CompanyProfile) : ScoreResult :=
  { risk_score := pyRound (rawScore rd s cp) 2
    severity_band := score_to_band (rawScore rd s cp)
    components :=
      { probability := pyRound (probability rd) 3
        impact := pyRound (impact s cp) 2
        urgency := urgency rd
        mitigation := mitigation s cp } }

@[simp] theorem confBool_ne_confStr (b : Bool) (s : String) :
    ¬ (ConfVal.bool b = ConfVal.str s) := fun h => ConfVal.noConfusion h

@[simp] theorem confStr_ne_confBool (s : String) (b : Bool) :
    ¬ (ConfVal.str s = ConfVal.bool b) := fun h => ConfVal.noConfusion h

theorem prob_map_bounds (s : String) : 0 ≤ prob_map s ∧ prob_map s ≤ 1 := by
  unfold prob_map
  split_ifs <;> norm_num

theorem probability_bounds (rd : RiskData) :
    0 ≤ probability rd ∧ probability rd ≤ 1 := by
  obtain ⟨h0, h1⟩ := prob_map_bounds (rd.severity.getD "medium")
  unfold probability
  split_ifs <;> constructor <;> nlinarith

theorem impact_bounds (s : ScoringSupplier) (cp : CompanyProfile) :
    1 ≤ impact s cp ∧ impact s cp ≤ 10 := by
  unfold impact
  exact ⟨le_max_left _ _, max_le (by norm_num) (min_le_left _ _)⟩

theorem mitigation_bounds (s : ScoringSupplier) (cp : CompanyProfile) :
    1/2 ≤ mitigation s cp ∧ mitigation s cp ≤ 2 := by
  unfold mitigation
  split_ifs
  · norm_num
  · have hmin0 : (0 : ℚ) ≤ min ((count_alternate_suppliers (supplierMaterial s) cp : ℚ) * (1/5)) 1 :=
      le_min (by positivity) (by norm_num)
    have hmin1 := min_le_right ((count_alternate_suppliers (supplierMaterial s) cp : ℚ) * (1/5)) 1
    constructor <;> linarith

/-- C1: scenario A of the spec.  With severity "critical", confirmed true,
immediate horizon, a 100 percent single-source supplier of LPG with
criticality 5 and 10 inventory days, `calculate_risk_score` returns
probability 0.95, impact 3.75, urgency 2.0, mitigation 0.5,
risk_score 14.25 and band "critical". -/
theorem scenarioA_score :
    calculate_risk_score
      ⟨some "critical", some (ConfVal.bool true), some "immediate"⟩
      ⟨some 100, some ["LPG"], some true⟩
      ⟨[("LPG", 5)], [("LPG", 10)], none⟩ =
    { risk_score := 57/4
      severity_band := "critical"
      components :=
        { probability := 19/20, impact := 15/4, urgency := 2, mitigation := 1/2 } } := by
  norm_num [calculate_risk_score, rawScore, probability, prob_map, impact, impactRaw, supplierMaterial, dependencyFrac, dictGet, urgency, mitigation, count_alternate_suppliers, score_to_band, pyRound, pyRnd, List.find?]

/-- C3 counterexample: the returned `severity_band` is NOT a function of the
returned (rounded) `risk_score` under the band mapping.  At this input the
returned score is exactly 10 (rounded up from 9.9978) yet the band is
"high", not "critical". -/
theorem band_not_from_rounded_score :
    (10 : ℚ) ≤ (calculate_risk_score
      ⟨some "critical", some (ConfVal.bool true), some "immediate"⟩
      ⟨some (2631/100), some ["m"], some true⟩
      ⟨[("m", 10)], [("m", 0)], none⟩).risk_score ∧
    (calculate_risk_score
      ⟨some "critical", some (ConfVal.bool true), some "immediate"⟩
      ⟨some (2631/100), some ["m"], some true⟩
      ⟨[("m", 10)], [("m", 0)], none⟩).severity_band ≠ "critical" := by
  refine ⟨?_, ?_⟩ <;>
  norm_num [calculate_risk_score, rawScore, probability, prob_map, impact, impactRaw, supplierMaterial, dependencyFrac, dictGet, urgency, mitigation, count_alternate_suppliers, score_to_band, pyRound, pyRnd, List.find?]
  decide

/-- C3 amended: the returned `severity_band` is a pure function of the
UNROUNDED final score, under the documented band mapping (critical iff
score ≥ 10, high iff ≥ 6, medium iff ≥ 3, else low); the rounded
`risk_score` that is returned may disagree with the band near boundaries. -/
theorem band_from_raw_score (rd : RiskData) (s : ScoringSupplier)
    (cp : CompanyProfile) :
    (calculate_risk_score rd s cp).severity_band =
      (if 10 ≤ rawScore rd s cp then "critical"
       else if 6 ≤ rawScore rd s cp then "high"
       else if 3 ≤ rawScore rd s cp then "medium" else "low") ∧
    ((calculate_risk_score rd s cp).severity_band = "critical" ↔
      10 ≤ rawScore rd s cp) := by
  constructor
  · rfl
  · show score_to_band (rawScore rd s cp) = "critical" ↔ _
    unfold score_to_band
    split_ifs with h1 h2 h3 <;> simp_all

/-- C4: for every input, the returned components satisfy
mitigation ∈ [0.5, 2], impact ∈ [1, 10] and probability ∈ [0, 1]
(probability and impact are returned rounded to 3 and 2 decimals). -/
theorem components_in_range (rd : RiskData) (s : ScoringSupplier)
    (cp : CompanyProfile) :
    (1/2 ≤ (calculate_risk_score rd s cp).components.mitigation ∧
      (calculate_risk_score rd s cp).components.mitigation ≤ 2) ∧
    (1 ≤ (calculate_risk_score rd s cp).components.impact ∧
      (calculate_risk_score rd s cp).components.impact ≤ 10) ∧
    (0 ≤ (calculate_risk_score rd s cp).components.probability ∧
      (calculate_risk_score rd s cp).components.probability ≤ 1) := by
  obtain ⟨hp0, hp1⟩ := probability_bounds rd
  obtain ⟨hi1, hi10⟩ := impact_bounds s cp
  obtain ⟨hm0, hm2⟩ := mitigation_bounds s cp
  refine ⟨⟨hm0, hm2⟩, ⟨?_, ?_⟩, ?_, ?_⟩
  · have := le_pyRound_of_le (c := 1) 2 (by exact_mod_cast hi1)
    exact_mod_cast this
  · have := pyRound_le_of_le (c := 10) 2 (by exact_mod_cast hi10)
    exact_mod_cast this
  · have := le_pyRound_of_le (c := 0) 3 (by exact_mod_cast hp0)
    exact_mod_cast this
  · have := pyRound_le_of_le (c := 1) 3 (by exact_mod_cast hp1)
    exact_mod_cast this

/-! ## Alternate supplier ranking (`src/backend/src/recommender/supplier_finder.py`) -/

/-- Supplier document as stored in the `suppliers` collection (fields read by
`find_alternates` and `score_alternate_supplier`). -/
structure SupplierDoc where
  id : String
  name : String
  country : String
  company_id : Option String
  supplies : Option (List String)
  supply_volume_pct : Option ℚ
  status : Option String
  max_capacity : Option ℚ
  approved_vendor : Option Bool
  pre_qualified : Option Bool
  esg_score : Option ℚ
  financial_health_score : Option ℚ
  switching_cost_estimate : Option ℚ
  lead_time_weeks : Option ℚ
  is_single_source : Option Bool
deriving Repr, DecidableEq

/-- Per-factor breakdown returned by `score_alternate_supplier`. -/
structure ScoreBreakdown where
  geographic_diversity : ℚ
  capacity : ℚ
  relationship : ℚ
  esg : ℚ
  financial : ℚ
  switching_cost : ℚ
  lead_time : ℚ
deriving Repr, DecidableEq

/-- Scored alternate supplier entry returned by `score_alternate_supplier`. -/
structure ScoredAlt where
  supplier_id : String
  name : String
  score : ℚ
  lead_time_weeks : ℚ
  approved_vendor : Bool
  country : String
  capacity : Option ℚ
  esg_score : Option ℚ
  score_breakdown : ScoreBreakdown
deriving Repr, DecidableEq

/-- Embedding of `score_alternate_supplier(candidate, disrupted, required_volume)`. -/
def score_alternate_supplier (candidate disrupted : SupplierDoc)
    (required_volume : ℚ) : ScoredAlt :=
  let geo_score : ℚ := if candidate.country ≠ disrupted.country then 1 else 3/10
  let cap_score : ℚ :=
    if 0 < candidate.max_capacity.getD 0 then
      min (candidate.max_capacity.getD 0 / required_volume) 1
    else 1/2
  let rel_score : ℚ :=
    if candidate.approved_vendor.getD false then 1
    else if candidate.pre_qualified.getD false then 4/5
    else 2/5
  let esg_val : ℚ := candidate.esg_score.getD 50 / 100
  let financial_score : ℚ := candidate.financial_health_score.getD 5 / 10
  let switch_score : ℚ := 1 - candidate.switching_cost_estimate.getD 5 / 10
  let lead_time_weeks : ℚ := candidate.lead_time_weeks.getD 8
  let lead_score : ℚ := 1 / (1 + lead_time_weeks / 4)
  let final_score : ℚ :=
    (geo_score * (1/5) + cap_score * (1/4) + rel_score * (1/5) +
      esg_val * (1/10) + financial_score * (1/10) + switch_score * (1/20) +
      lead_score * (1/10)) * 10
  { supplier_id := candidate.id
    name := candidate.name
    score := pyRound final_score 2
    lead_time_weeks := lead_time_weeks
    approved_vendor := candidate.approved_vendor.getD false
    country := candidate.country
    capacity := candidate.max_capacity
    esg_score := candidate.esg_score
    score_breakdown :=
      { geographic_diversity := pyRound geo_score 2
        capacity := pyRound cap_score 2
        relationship := pyRound rel_score 2
        esg := pyRound esg_val 2
        financial := pyRound financial_score 2
        switching_cost := pyRound switch_score 2
        lead_time := pyRound lead_score 2 } }

/-- Stable insertion of a scored entry into a non-increasing list: the entry
goes before the first element whose score is ≤ its own, so that earlier
elements win ties.  This models Python stable `sort(key=score, reverse=True)`. -/
def insertDesc (x : ScoredAlt) : List ScoredAlt → List ScoredAlt
  | [] => [x]
  | y :: ys => if y.score ≤ x.score then x :: y :: ys else y :: insertDesc x ys

/-- Stable non-increasing sort by `score` (ties keep input order), the model
of `scored_alternates.sort(key=lambda x: x["score"], reverse=True)`. -/
def sortDesc : List ScoredAlt → List ScoredAlt
  | [] => []
  | x :: xs => insertDesc x (sortDesc xs)

/-- Candidate filter used by the MongoDB query in `find_alternates`:
same material in `supplies`, different id, allowed status, same company. -/
def candidateFilter (material : String) (disrupted_id : String)
    (company_id : Option String) (s : SupplierDoc) : Bool :=
  (s.supplies.getD []).contains material &&
  (s.id != disrupted_id) &&
  (["active", "alternate", "pre_qualified"].contains (s.status.getD "")) &&
  (s.company_id == company_id)

/-- Embedding of `find_alternates(disrupted_supplier_id, db, max_results)`;
the `db.suppliers` collection is passed as a list in insertion order. -/
def find_alternates (suppliers : List SupplierDoc)
    (disrupted_supplier_id : String) (max_results : ℕ) : List ScoredAlt :=
  match suppliers.find? (fun s => s.id == disrupted_supplier_id) with
  | none => []
  | some disrupted =>
      let material := (disrupted.supplies.getD ["unknown"]).headD "unknown"
      let required_volume := disrupted.supply_volume_pct.getD 50
      let candidates := suppliers.filter
        (candidateFilter material disrupted_supplier_id disrupted.company_id)
      if candidates.isEmpty then []
      else
        let scored := candidates.map
          (fun c => score_alternate_supplier c disrupted required_volume)
        (sortDesc scored).take max_results

/-- Ordering claimed by the spec for the ranked list: non-increasing score,
with ties broken by lead time ascending, then approved vendors first, then
name ascending.  (Stated from the spec, for comparison with the code.) -/
def specTiebreakOrdered (l : List ScoredAlt) : Prop :=
  l.Pairwise (fun x y =>
    y.score < x.score ∨
      (x.score = y.score ∧
        (x.lead_time_weeks < y.lead_time_weeks ∨
          (x.lead_time_weeks = y.lead_time_weeks ∧
            ((x.approved_vendor = true ∧ y.approved_vendor = false) ∨
              (x.approved_vendor = y.approved_vendor ∧
                (x.name < y.name ∨ x.name = y.name)))))))

theorem mem_insertDesc (x : ScoredAlt) (l : List ScoredAlt) :
    ∀ z ∈ insertDesc x l, z = x ∨ z ∈ l := by
  induction l with
  | nil =>
      intro z hz
      simpa [insertDesc] using hz
  | cons y ys ih =>
      intro z hz
      rw [insertDesc] at hz
      split_ifs at hz with hc
      · simp only [List.mem_cons] at hz ⊢
        tauto
      · simp only [List.mem_cons] at hz ⊢
        rcases hz with hz | hz
        · tauto
        · rcases ih z hz with h1 | h1 <;> tauto

theorem insertDesc_sorted {x : ScoredAlt} {l : List ScoredAlt}
    (h : l.Pairwise (fun a b => b.score ≤ a.score)) :
    (insertDesc x l).Pairwise (fun a b => b.score ≤ a.score) := by
  induction l with
  | nil => simp [insertDesc]
  | cons y ys ih =>
      rw [List.pairwise_cons] at h
      obtain ⟨hy, hys⟩ := h
      rw [insertDesc]
      split_ifs with hc
      · refine List.pairwise_cons.2 ⟨?_, List.pairwise_cons.2 ⟨hy, hys⟩⟩
        intro z hz
        rcases List.mem_cons.1 hz with rfl | hz
        · exact hc
        · exact le_trans (hy z hz) hc
      · refine List.pairwise_cons.2 ⟨?_, ih hys⟩
        intro z hz
        rcases mem_insertDesc x ys z hz with rfl | h1
        · exact le_of_not_le hc
        · exact hy z h1

theorem sortDesc_sorted (l : List ScoredAlt) :
    (sortDesc l).Pairwise (fun a b => b.score ≤ a.score) := by
  induction l with
  | nil => simp [sortDesc]
  | cons x xs ih => exact insertDesc_sorted ih

/-- C7 amended: the list returned by `find_alternates` is sorted
non-increasing in (rounded) score and has at most `max_results` entries;
ties keep the database order of the candidates (stable sort) — no
lead-time / approved-vendor / name tiebreak is applied. -/
theorem find_alternates_sorted_and_bounded (suppliers : List SupplierDoc)
    (disrupted_supplier_id : String) (max_results : ℕ) :
    (find_alternates suppliers disrupted_supplier_id max_results).length ≤
        max_results ∧
    (find_alternates suppliers disrupted_supplier_id max_results).Pairwise
        (fun a b => b.score ≤ a.score) := by
  unfold find_alternates
  cases hfind : suppliers.find? (fun s => s.id == disrupted_supplier_id) with
  | none => simp
  | some disrupted =>
      simp only
      split_ifs
      · simp
      · constructor
        · exact List.length_take_le _ _
        · exact List.Pairwise.sublist (List.take_sublist _ _) (sortDesc_sorted _)

/-- C7 counterexample: two candidates ("B" then "A" in database order) tie at
score 5.8, but "B" has lead time 12 weeks and "A" only 4 weeks; the returned
list keeps "B" first (stable sort by score only), violating the claimed
lead-time-ascending tiebreak. -/
theorem alternates_tiebreak_violated :
    ¬ specTiebreakOrdered (find_alternates
      [⟨"D", "D", "X", some "c", some ["m"], some 50, some "active",
          none, none, none, none, none, none, none, none⟩,
       ⟨"B", "B", "Y", some "c", some ["m"], none, some "active",
          none, none, none, some 75, none, none, some 12, none⟩,
       ⟨"A", "A", "Y", some "c", some ["m"], none, some "active",
          none, none, none, some 50, none, none, some 4, none⟩]
      "D" 5) := by
  have heval : find_alternates
      [⟨"D", "D", "X", some "c", some ["m"], some 50, some "active",
          none, none, none, none, none, none, none, none⟩,
       ⟨"B", "B", "Y", some "c", some ["m"], none, some "active",
          none, none, none, some 75, none, none, some 12, none⟩,
       ⟨"A", "A", "Y", some "c", some ["m"], none, some "active",
          none, none, none, some 50, none, none, some 4, none⟩]
      "D" 5 =
      [⟨"B", "B", 29/5, 12, false, "Y", none, some 75, ⟨1, 1/2, 2/5, 3/4, 1/2, 1/2, 1/4⟩⟩,
       ⟨"A", "A", 29/5, 4, false, "Y", none, some 50, ⟨1, 1/2, 2/5, 1/2, 1/2, 1/2, 1/2⟩⟩] := by
    simp [find_alternates, candidateFilter, List.find?_cons, List.filter_cons,
      score_alternate_supplier, sortDesc, insertDesc]
    norm_num [pyRound, pyRnd]
  rw [heval]
  intro h
  unfold specTiebreakOrdered at h
  simp only [List.pairwise_cons, List.mem_singleton, forall_eq] at h
  norm_num at h

/-! ## Alert generation (`src/backend/src/risk_engine/alert_generator.py`,
`src/backend/src/recommender/recommendation_text.py`) and the extraction
worker (`src/backend/src/risk_engine/workers.py`).

MongoDB collections are embedded as lists in insertion order; `find_one` is
`List.find?`; `insert_one` appends and returns a fresh id derived from the
collection size (standing in for the generated ObjectId). -/

/-- Company document fields used by the pipeline. -/
structure Company where
  id : String
  company_name : String
deriving Repr, DecidableEq

/-- Application settings relevant to alerting (`src/utils/config.py`). -/
structure Settings where
  alert_threshold_score : ℚ
  company_id : String
deriving Repr, DecidableEq

/-- Default settings values from `config.py`. -/
def defaultSettings : Settings := ⟨3, "company_nayara_energy"⟩

/-- Risk-event document (fields written by `workers.py` and read by
`alert_generator.py`). -/
structure RiskEvent where
  id : String
  article_id : Option String
  company_id : Option String
  risk_type : String
  affected_entities : List String
  affected_supply_chain_nodes : List String
  severity : Option String
  is_confirmed : Option ConfVal
  time_horizon : Option String
  reasoning : String
  recommended_action : Option String
  risk_score_components : ScoreComponents
  risk_score : ℚ
  severity_band : String
  propagation : List (String × ℚ)
deriving Repr, DecidableEq

/-- Alert document fields written by `create_alert` (timestamps omitted:
they are wall-clock values external to the logic). -/
structure Alert where
  risk_event_id : String
  company_id : String
  severity_band : String
  risk_score : ℚ
  title : String
  description : String
  affected_supplier : String
  affected_material : String
  recommendations : List ScoredAlt
  recommendation_text : Option String
  is_acknowledged : Bool
  notification_sent : Bool
deriving Repr, DecidableEq

/-- Normalized article payload (fields the extraction handler reads). -/
structure ArticleData where
  event_id : Option String
  headline : String
deriving Repr, DecidableEq

/-- Article document in the `articles` collection. -/
structure ArticleDoc where
  data : ArticleData
  raw_relevance_score : Option ℚ
  processed : Bool
  risk_extracted : Bool
deriving Repr, DecidableEq

/-- Parsed LLM extraction result consumed by the extraction handler. -/
structure ExtractionRiskData where
  is_risk : Bool
  risk_type : String
  severity : String
  is_confirmed : Option ConfVal
  time_horizon : String
  affected_entities : List String
  affected_supply_chain_nodes : List String
  reasoning : Option String
  recommended_action : Option String
deriving Repr, DecidableEq

/-- The MongoDB database: all collections in insertion order. -/
structure DB where
  companies : List Company
  suppliers : List SupplierDoc
  articles : List ArticleDoc
  risk_events : List RiskEvent
  alerts : List (String × Alert)
deriving Repr, DecidableEq

/-- Python `str.title()` over ASCII: uppercase a letter that follows a
non-letter, lowercase the other letters. -/
def titleAux : Bool → List Char → List Char
  | _, [] => []
  | prevAlpha, c :: cs =>
      if c.isAlpha then
        (if prevAlpha then c.toLower else c.toUpper) :: titleAux true cs
      else c :: titleAux false cs

/-- Python `s.title()`. -/
def pyTitle (s : String) : String := ⟨titleAux false s.data⟩

/-- Python `s.replace("_", " ")`. -/
def replaceUnderscore (s : String) : String :=
  ⟨s.data.map (fun c => if c = '_' then ' ' else c)⟩

/-- Embedding of `generate_alert_title(risk_event)`. -/
def generate_alert_title (re : RiskEvent) : String :=
  let rt := pyTitle (replaceUnderscore re.risk_type)
  let affected_str :=
    match re.affected_supply_chain_nodes with
    | [] => "Supply Chain"
    | h :: _ => h
  rt ++ " Risk: " ++ affected_str

/-- Embedding of `generate_alert_description(risk_event)`. -/
def generate_alert_description (re : RiskEvent) : String :=
  if re.affected_entities.isEmpty then re.reasoning
  else re.reasoning ++ " Affected entities: " ++
    String.intercalate ", " (re.affected_entities.take 5) ++ "."

/-- Embedding of `should_create_alert(risk_event)`. -/
def should_create_alert (st : Settings) (re : RiskEvent) : Bool :=
  if re.risk_score < st.alert_threshold_score then false
  else if re.affected_supply_chain_nodes.isEmpty then false
  else true

/-- Data handed to the LLM when generating the recommendation text. -/
structure AlertData where
  title : String
  risk_score : ℚ
  severity_band : String
  affected_supplier : String
  affected_material : String
deriving Repr, DecidableEq

/-- The external LLM text generator (`generate_recommendation_text`),
abstracted as a function value; `none` models no client. -/
def GemFn : Type := AlertData → List ScoredAlt → Company → String

/-- Material of the resolved supplier,
`supplier.get("supplies", ["unknown"])[0]`: `some` the head of the list when
the supplier is missing (default list) or has a first material; `none` models
the IndexError raised when `supplies` is present but an EMPTY list — the
broad `except` in `create_alert` then returns `None` without inserting. -/
def resolvedMaterial (supplierFound : Option SupplierDoc) : Option String :=
  match supplierFound with
  | none => some "unknown"
  | some s => (s.supplies.getD ["unknown"]).head?

/-- Embedding of `create_alert(risk_event, db, gemini_client)`: returns the
created alert id (or `none`) together with the updated database.  The
IndexError on an empty `supplies` list surfaces as the `none` branch of
`resolvedMaterial` and aborts with no write, like the source's `except`. -/
def create_alert (st : Settings) (re : RiskEvent) (db : DB)
    (gem : Option GemFn) : Option String × DB :=
  if should_create_alert st re then
    match db.companies.find? (fun c => c.id == re.company_id.getD st.company_id) with
    | none => (none, db)
    | some company =>
        let company_id := re.company_id.getD st.company_id
        let primary_supplier_name := re.affected_supply_chain_nodes.headD "Unknown"
        let supplierFound := db.suppliers.find?
          (fun s => s.name == primary_supplier_name && s.company_id == some company_id)
        match resolvedMaterial supplierFound with
        | none => (none, db)
        | some affected_material =>
        let title := generate_alert_title re
        let description := generate_alert_description re
        let alternates :=
          match supplierFound with
          | none => []
          | some s => find_alternates db.suppliers s.id 5
        let recommendation_text :=
          match supplierFound, gem with
          | some _, some g =>
              if alternates.isEmpty then none
              else some (g ⟨title, re.risk_score, re.severity_band,
                primary_supplier_name, affected_material⟩ alternates company)
          | _, _ => none
        let alert : Alert :=
          ⟨re.id, company_id, re.severity_band, re.risk_score, title,
            description, primary_supplier_name, affected_material, alternates,
            recommendation_text, false, false⟩
        let alert_id := "alert_" ++ toString db.alerts.length
        (some alert_id, { db with alerts := db.alerts ++ [(alert_id, alert)] })
  else (none, db)

theorem should_create_alert_iff (st : Settings) (re : RiskEvent) :
    should_create_alert st re = true ↔
      (st.alert_threshold_score ≤ re.risk_score ∧
        re.affected_supply_chain_nodes ≠ []) := by
  unfold should_create_alert
  split_ifs with h1 h2
  · simp only [false_iff]
    rintro ⟨ha, _⟩
    exact absurd ha (not_le.2 h1)
  · simp only [false_iff]
    rintro ⟨_, hb⟩
    exact hb (List.isEmpty_iff.1 h2)
  · simp only [true_iff]
    refine ⟨le_of_not_lt h1, fun he => h2 ?_⟩
    simp [he]

/-- C2 amended: on databases whose suppliers have non-zero supply volume and
non-negative lead times (so the candidate scorer's divisions are defined and
the embedding matches the program), an alert is inserted iff the risk score
reaches the threshold AND the affected-node list is non-empty AND the company
document exists AND resolving the primary supplier yields a material (the
supplier is absent, or its `supplies` list is non-empty — a present empty
list raises IndexError in the source and aborts with no write); when the
gate fails the function returns `none` and the database is unchanged. -/
theorem create_alert_gating (st : Settings) (re : RiskEvent) (db : DB)
    (gem : Option GemFn)
    (hwf : ∀ s ∈ db.suppliers,
      0 < s.supply_volume_pct.getD 50 ∧ 0 ≤ s.lead_time_weeks.getD 8) :
    ((create_alert st re db gem).1.isSome = true ↔
      (st.alert_threshold_score ≤ re.risk_score ∧
        re.affected_supply_chain_nodes ≠ [] ∧
        (db.companies.find?
          (fun c => c.id == re.company_id.getD st.company_id)).isSome = true ∧
        (resolvedMaterial (db.suppliers.find?
          (fun s => s.name == re.affected_supply_chain_nodes.headD "Unknown" &&
            s.company_id ==
              some (re.company_id.getD st.company_id)))).isSome = true)) ∧
    ((create_alert st re db gem).1.isSome = true →
      (create_alert st re db gem).2.alerts.length = db.alerts.length + 1) ∧
    ((create_alert st re db gem).1 = none →
      (create_alert st re db gem).2 = db) := by
  cases hs : should_create_alert st re with
  | false =>
      have hs2 : ¬ (st.alert_threshold_score ≤ re.risk_score ∧
          re.affected_supply_chain_nodes ≠ []) := by
        rw [← should_create_alert_iff st re, hs]
        simp
      simp only [create_alert, hs, Bool.false_eq_true, if_false]
      refine ⟨?_, by simp, by simp⟩
      simp only [Option.isSome_none, Bool.false_eq_true, false_iff]
      rintro ⟨ha, hb, -, -⟩
      exact hs2 ⟨ha, hb⟩
  | true =>
      obtain ⟨ha, hb⟩ := (should_create_alert_iff st re).1 hs
      cases hfind : db.companies.find?
          (fun c => c.id == re.company_id.getD st.company_id) with
      | none =>
          simp only [create_alert, hs, if_true, hfind]
          refine ⟨?_, by simp, by simp⟩
          simp [ha, hb, hfind]
      | some c =>
          simp only [create_alert, hs, if_true, hfind]
          cases hmat : resolvedMaterial (db.suppliers.find?
              (fun s => s.name == re.affected_supply_chain_nodes.headD "Unknown" &&
                s.company_id == some (re.company_id.getD st.company_id))) with
          | none =>
              refine ⟨?_, by simp, by simp⟩
              simp [ha, hb, hfind, hmat]
          | some mat =>
              refine ⟨?_, ?_, by simp⟩
              · simp [ha, hb, hfind, hmat]
              · intro
                simp

/-- C2 witness: one company, an empty supplier catalog (so the
well-formedness hypothesis holds trivially), a risk event with score 5 ≥ 3
and a non-empty node list: all gate conditions hold and exactly one alert is
inserted. -/
theorem create_alert_gating_witness :
    (∀ s ∈ (⟨[⟨"c1", "ACME"⟩], [], [], [], []⟩ : DB).suppliers,
      0 < s.supply_volume_pct.getD 50 ∧ 0 ≤ s.lead_time_weeks.getD 8) ∧
    (((create_alert defaultSettings
        ⟨"r1", none, some "c1", "operational", [], ["S"], none, none, none,
          "", none, ⟨0, 0, 0, 0⟩, 5, "high", []⟩
        ⟨[⟨"c1", "ACME"⟩], [], [], [], []⟩ none).1.isSome = true ↔
      (defaultSettings.alert_threshold_score ≤
          (⟨"r1", none, some "c1", "operational", [], ["S"], none, none, none,
            "", none, ⟨0, 0, 0, 0⟩, 5, "high", []⟩ : RiskEvent).risk_score ∧
        (⟨"r1", none, some "c1", "operational", [], ["S"], none, none, none,
          "", none, ⟨0, 0, 0, 0⟩, 5, "high", []⟩ : RiskEvent).affected_supply_chain_nodes ≠ [] ∧
        ((⟨[⟨"c1", "ACME"⟩], [], [], [], []⟩ : DB).companies.find?
          (fun c => c.id ==
            (⟨"r1", none, some "c1", "operational", [], ["S"], none, none, none,
              "", none, ⟨0, 0, 0, 0⟩, 5, "high", []⟩ : RiskEvent).company_id.getD
              defaultSettings.company_id)).isSome = true ∧
        (resolvedMaterial ((⟨[⟨"c1", "ACME"⟩], [], [], [], []⟩ : DB).suppliers.find?
          (fun s => s.name ==
              (⟨"r1", none, some "c1", "operational", [], ["S"], none, none, none,
                "", none, ⟨0, 0, 0, 0⟩, 5, "high", []⟩ : RiskEvent).affected_supply_chain_nodes.headD "Unknown" &&
            s.company_id == some
              ((⟨"r1", none, some "c1", "operational", [], ["S"], none, none, none,
                "", none, ⟨0, 0, 0, 0⟩, 5, "high", []⟩ : RiskEvent).company_id.getD
                defaultSettings.company_id)))).isSome = true)) ∧
    ((create_alert defaultSettings
        ⟨"r1", none, some "c1", "operational", [], ["S"], none, none, none,
          "", none, ⟨0, 0, 0, 0⟩, 5, "high", []⟩
        ⟨[⟨"c1", "ACME"⟩], [], [], [], []⟩ none).1.isSome = true →
      (create_alert defaultSettings
        ⟨"r1", none, some "c1", "operational", [], ["S"], none, none, none,
          "", none, ⟨0, 0, 0, 0⟩, 5, "high", []⟩
        ⟨[⟨"c1", "ACME"⟩], [], [], [], []⟩ none).2.alerts.length =
        (⟨[⟨"c1", "ACME"⟩], [], [], [], []⟩ : DB).alerts.length + 1) ∧
    ((create_alert defaultSettings
        ⟨"r1", none, some "c1", "operational", [], ["S"], none, none, none,
          "", none, ⟨0, 0, 0, 0⟩, 5, "high", []⟩
        ⟨[⟨"c1", "ACME"⟩], [], [], [], []⟩ none).1 = none →
      (create_alert defaultSettings
        ⟨"r1", none, some "c1", "operational", [], ["S"], none, none, none,
          "", none, ⟨0, 0, 0, 0⟩, 5, "high", []⟩
        ⟨[⟨"c1", "ACME"⟩], [], [], [], []⟩ none).2 =
        ⟨[⟨"c1", "ACME"⟩], [], [], [], []⟩)) :=
  ⟨by simp,
    create_alert_gating defaultSettings
      ⟨"r1", none, some "c1", "operational", [], ["S"], none, none, none,
        "", none, ⟨0, 0, 0, 0⟩, 5, "high", []⟩
      ⟨[⟨"c1", "ACME"⟩], [], [], [], []⟩ none (by simp)⟩

/-- C2 counterexample: a risk event with score 5 ≥ threshold 3 and a
non-empty node list, but an empty `companies` collection: both claimed
conditions hold yet `create_alert` returns `none` and writes nothing. -/
theorem alert_iff_violated :
    ((3 : ℚ) ≤ 5 ∧ (["S"] : List String) ≠ []) ∧
    create_alert defaultSettings
      ⟨"r1", none, some "c1", "operational", [], ["S"], none, none, none,
        "", none, ⟨0, 0, 0, 0⟩, 5, "high", []⟩
      ⟨[], [], [], [], []⟩ none =
      (none, ⟨[], [], [], [], []⟩) := by
  refine ⟨⟨by norm_num, by simp⟩, ?_⟩
  norm_num [create_alert, should_create_alert, defaultSettings]

/-- Mongo `update_one` (no upsert): apply `f` to the FIRST element matching
`p`; if nothing matches, the list is unchanged. -/
def updateFirst (p : α → Bool) (f : α → α) : List α → List α
  | [] => []
  | x :: xs => if p x then f x :: xs else x :: updateFirst p f xs

theorem updateFirst_length (p : α → Bool) (f : α → α) (l : List α) :
    (updateFirst p f l).length = l.length := by
  induction l with
  | nil => rfl
  | cons x xs ih =>
      rw [updateFirst]
      split_ifs <;> simp [ih]

theorem updateFirst_no_match (p : α → Bool) (f : α → α) (l : List α)
    (h : ∀ x ∈ l, p x = false) : updateFirst p f l = l := by
  induction l with
  | nil => rfl
  | cons x xs ih =>
      rw [updateFirst]
      rw [h x (by simp)]
      simp only [Bool.false_eq_true, if_false]
      rw [ih (fun y hy => h y (by simp [hy]))]

theorem updateFirst_hits (p : α → Bool) (f : α → α) (l : List α)
    (h : ∃ x ∈ l, p x = true) :
    ∃ y ∈ l, p y = true ∧ f y ∈ updateFirst p f l := by
  induction l with
  | nil => simp at h
  | cons x xs ih =>
      rw [updateFirst]
      by_cases hx : p x = true
      · exact ⟨x, by simp, hx, by simp [hx]⟩
      · obtain ⟨z, hz, hpz⟩ := h
        rcases List.mem_cons.1 hz with rfl | hz2
        · exact absurd hpz hx
        · obtain ⟨y, hy, hpy, hfy⟩ := ih ⟨z, hz2, hpz⟩
          refine ⟨y, by simp [hy], hpy, ?_⟩
          simp only [Bool.not_eq_true] at hx
          simp [hx, hfy]

/-- Embedding of the per-article handler inside
`process_risk_extraction_task` (`workers.py`).  The relevance verdict and
the LLM extraction result are inputs, since both come from external
services; `cpId` is `company_profile["_id"]`.  Returns the updated database. -/
def process_risk_extraction_handler (db : DB) (article : ArticleData)
    (relevant : Bool) (relevance_score : ℚ)
    (risk_data : Option ExtractionRiskData) (cpId : String) : DB :=
  if !relevant then db
  else
    match risk_data with
    | none => db
    | some rd =>
        if !rd.is_risk then
          let upd := updateFirst
            (fun d => d.data.event_id == article.event_id)
            (fun d => { d with processed := true, risk_extracted := false })
            db.articles
          { db with articles := upd }
        else
          let doc : ArticleDoc := ⟨article, some relevance_score, true, true⟩
          let article_id := "article_" ++ toString db.articles.length
          let re : RiskEvent :=
            ⟨"re_" ++ toString db.risk_events.length, some article_id,
              some cpId, rd.risk_type, rd.affected_entities,
              rd.affected_supply_chain_nodes, some rd.severity,
              some (rd.is_confirmed.getD (ConfVal.str "uncertain")),
              some rd.time_horizon, rd.reasoning.getD "",
              rd.recommended_action, ⟨0, 0, 0, 0⟩, 0, "low", []⟩
          { db with articles := db.articles ++ [doc],
                    risk_events := db.risk_events ++ [re] }

/-- C8 counterexample: with an empty `articles` collection (as in the real
pipeline, where articles are only inserted on the `is_risk=true` branch), the
`is_risk=false` branch runs `update_one` without upsert, so NO article is
persisted with `processed=true, risk_extracted=false`. -/
theorem extraction_notrisk_nothing_persisted :
    ¬ ∃ d ∈ (process_risk_extraction_handler ⟨[], [], [], [], []⟩
        ⟨some "e1", "headline"⟩ true 1
        (some ⟨false, "operational", "high", none, "weeks", [], [], none, none⟩)
        "c").articles,
      d.processed = true ∧ d.risk_extracted = false := by
  simp [process_risk_extraction_handler, updateFirst]

/-- C8 amended: on `is_risk=false` the handler creates no risk event and no
alert (and touches no other collection); it inserts no article either — it
only marks the FIRST existing article matching the event id (if any) as
`processed=true, risk_extracted=false`, leaving the collection untouched when
no stored article matches. -/
theorem extraction_notrisk_frame (db : DB) (article : ArticleData)
    (rscore : ℚ) (rd : ExtractionRiskData) (cpId : String)
    (hrisk : rd.is_risk = false) :
    (process_risk_extraction_handler db article true rscore (some rd)
        cpId).risk_events = db.risk_events ∧
    (process_risk_extraction_handler db article true rscore (some rd)
        cpId).alerts = db.alerts ∧
    (process_risk_extraction_handler db article true rscore (some rd)
        cpId).companies = db.companies ∧
    (process_risk_extraction_handler db article true rscore (some rd)
        cpId).suppliers = db.suppliers ∧
    (process_risk_extraction_handler db article true rscore (some rd)
        cpId).articles.length = db.articles.length ∧
    ((∀ d ∈ db.articles, (d.data.event_id == article.event_id) = false) →
      (process_risk_extraction_handler db article true rscore (some rd)
        cpId).articles = db.articles) ∧
    ((∃ d ∈ db.articles, (d.data.event_id == article.event_id) = true) →
      ∃ d ∈ (process_risk_extraction_handler db article true rscore (some rd)
        cpId).articles,
        (d.data.event_id == article.event_id) = true ∧
        d.processed = true ∧ d.risk_extracted = false) := by
  simp only [process_risk_extraction_handler, hrisk, Bool.not_false,
    Bool.not_true, Bool.false_eq_true, if_false, if_true]
  refine ⟨by trivial, by trivial, by trivial, by trivial, ?_, ?_, ?_⟩
  · exact updateFirst_length _ _ _
  · intro hnone
    exact updateFirst_no_match _ _ _ hnone
  · intro hsome
    obtain ⟨y, hy, hpy, hfy⟩ := updateFirst_hits
      (fun d => d.data.event_id == article.event_id)
      (fun d => { d with processed := true, risk_extracted := false })
      db.articles hsome
    exact ⟨{ y with processed := true, risk_extracted := false }, hfy,
      by simpa using hpy, rfl, rfl⟩

/-- C8 witness: a database holding one unprocessed article with the matching
event id; after the handler runs on an `is_risk=false` extraction, no risk
event and no alert exist and the stored article is marked
`processed=true, risk_extracted=false`. -/
theorem extraction_notrisk_frame_witness :
    (false = false) ∧
    ((process_risk_extraction_handler
        ⟨[], [], [⟨⟨some "e1", "h"⟩, none, false, false⟩], [], []⟩
        ⟨some "e1", "h2"⟩ true 1
        (some ⟨false, "operational", "high", none, "weeks", [], [], none, none⟩)
        "c").risk_events = [] ∧
      (process_risk_extraction_handler
        ⟨[], [], [⟨⟨some "e1", "h"⟩, none, false, false⟩], [], []⟩
        ⟨some "e1", "h2"⟩ true 1
        (some ⟨false, "operational", "high", none, "weeks", [], [], none, none⟩)
        "c").alerts = [] ∧
      (process_risk_extraction_handler
        ⟨[], [], [⟨⟨some "e1", "h"⟩, none, false, false⟩], [], []⟩
        ⟨some "e1", "h2"⟩ true 1
        (some ⟨false, "operational", "high", none, "weeks", [], [], none, none⟩)
        "c").companies = [] ∧
      (process_risk_extraction_handler
        ⟨[], [], [⟨⟨some "e1", "h"⟩, none, false, false⟩], [], []⟩
        ⟨some "e1", "h2"⟩ true 1
        (some ⟨false, "operational", "high", none, "weeks", [], [], none, none⟩)
        "c").suppliers = [] ∧
      (process_risk_extraction_handler
        ⟨[], [], [⟨⟨some "e1", "h"⟩, none, false, false⟩], [], []⟩
        ⟨some "e1", "h2"⟩ true 1
        (some ⟨false, "operational", "high", none, "weeks", [], [], none, none⟩)
        "c").articles.length = 1 ∧
      True ∧
      (∃ d ∈ (process_risk_extraction_handler
        ⟨[], [], [⟨⟨some "e1", "h"⟩, none, false, false⟩], [], []⟩
        ⟨some "e1", "h2"⟩ true 1
        (some ⟨false, "operational", "high", none, "weeks", [], [], none, none⟩)
        "c").articles,
        (d.data.event_id == (⟨some "e1", "h2"⟩ : ArticleData).event_id) = true ∧
        d.processed = true ∧ d.risk_extracted = false)) := by
  have h := extraction_notrisk_frame
    ⟨[], [], [⟨⟨some "e1", "h"⟩, none, false, false⟩], [], []⟩
    ⟨some "e1", "h2"⟩ 1
    ⟨false, "operational", "high", none, "weeks", [], [], none, none⟩
    "c" rfl
  obtain ⟨h1, h2, h3, h4, h5, _, h7⟩ := h
  exact ⟨rfl, h1, h2, h3, h4, h5, trivial, h7 ⟨⟨⟨some "e1", "h"⟩, none, false, false⟩,
    by simp, by simp⟩⟩

/-! ## Article deduplication (`src/backend/src/ingestion/deduplicator.py`)

`generate_fingerprint` hashes the normalized article content with MD5
(`hashlib.md5(content.encode()).hexdigest()`).  MD5 is implemented here over
`ℕ` byte lists, following RFC 1321, so concrete digests evaluate by `decide`. -/

/-- MD5 round constants (RFC 1321, `K[i] = floor(2^32 * |sin(i+1)|)`). -/
def md5K : List ℕ :=
  [0xd76aa478, 0xe8c7b756, 0x242070db, 0xc1bdceee, 0xf57c0faf, 0x4787c62a,
   0xa8304613, 0xfd469501, 0x698098d8, 0x8b44f7af, 0xffff5bb1, 0x895cd7be,
   0x6b901122, 0xfd987193, 0xa679438e, 0x49b40821, 0xf61e2562, 0xc040b340,
   0x265e5a51, 0xe9b6c7aa, 0xd62f105d, 0x02441453, 0xd8a1e681, 0xe7d3fbc8,
   0x21e1cde6, 0xc33707d6, 0xf4d50d87, 0x455a14ed, 0xa9e3e905, 0xfcefa3f8,
   0x676f02d9, 0x8d2a4c8a, 0xfffa3942, 0x8771f681, 0x6d9d6122, 0xfde5380c,
   0xa4beea44, 0x4bdecfa9, 0xf6bb4b60, 0xbebfbc70, 0x289b7ec6, 0xeaa127fa,
   0xd4ef3085, 0x04881d05, 0xd9d4d039, 0xe6db99e5, 0x1fa27cf8, 0xc4ac5665,
   0xf4292244, 0x432aff97, 0xab9423a7, 0xfc93a039, 0x655b59c3, 0x8f0ccc92,
   0xffeff47d, 0x85845dd1, 0x6fa87e4f, 0xfe2ce6e0, 0xa3014314, 0x4e0811a1,
   0xf7537e82, 0xbd3af235, 0x2ad7d2bb, 0xeb86d391]

/-- MD5 per-round left-rotation amounts. -/
def md5S : List ℕ :=
  [7, 12, 17, 22, 7, 12, 17, 22, 7, 12, 17, 22, 7, 12, 17, 22,
   5, 9, 14, 20, 5, 9, 14, 20, 5, 9, 14, 20, 5, 9, 14, 20,
   4, 11, 16, 23, 4, 11, 16, 23, 4, 11, 16, 23, 4, 11, 16, 23,
   6, 10, 15, 21, 6, 10, 15, 21, 6, 10, 15, 21, 6, 10, 15, 21]

/-- Bitwise complement on 32-bit words represented as ℕ. -/
def not32 (x : ℕ) : ℕ := 2 ^ 32 - 1 - x % 2 ^ 32

/-- Left-rotation of a 32-bit word. -/
def rotl32 (x n : ℕ) : ℕ := ((x <<< n) ||| (x >>> (32 - n))) % 2 ^ 32

/-- MD5 working state. -/
structure MD5State where
  a : ℕ
  b : ℕ
  c : ℕ
  d : ℕ
deriving Repr, DecidableEq

/-- Round function and message index for round `i`. -/
def md5FG (i b c d : ℕ) : ℕ × ℕ :=
  if i < 16 then ((b &&& c) ||| (not32 b &&& d), i)
  else if i < 32 then ((d &&& b) ||| (not32 d &&& c), (5 * i + 1) % 16)
  else if i < 48 then (b ^^^ c ^^^ d, (3 * i + 5) % 16)
  else (c ^^^ (b ||| not32 d), (7 * i) % 16)

/-- One MD5 round. -/
def md5Step (M : ℕ → ℕ) (t : ℕ × ℕ × ℕ × ℕ) (i : ℕ) : ℕ × ℕ × ℕ × ℕ :=
  let f := ((md5FG i t.2.1 t.2.2.1 t.2.2.2).1 + t.1 + md5K.getD i 0 +
    M (md5FG i t.2.1 t.2.2.1 t.2.2.2).2) % 2 ^ 32
  (t.2.2.2, (t.2.1 + rotl32 f (md5S.getD i 0)) % 2 ^ 32, t.2.1, t.2.2.1)

/-- Compress one 64-byte chunk into the state. -/
def md5Compress (st : MD5State) (chunk : List ℕ) : MD5State :=
  let M : ℕ → ℕ := fun g =>
    chunk.getD (4 * g) 0 + 256 * chunk.getD (4 * g + 1) 0 +
      65536 * chunk.getD (4 * g + 2) 0 + 16777216 * chunk.getD (4 * g + 3) 0
  let r := (List.range 64).foldl (md5Step M) (st.a, st.b, st.c, st.d)
  ⟨(st.a + r.1) % 2 ^ 32, (st.b + r.2.1) % 2 ^ 32,
   (st.c + r.2.2.1) % 2 ^ 32, (st.d + r.2.2.2) % 2 ^ 32⟩

/-- MD5 padding: 0x80, zeros to 56 mod 64, 8-byte little-endian bit length. -/
def md5Pad (msg : List ℕ) : List ℕ :=
  let len := msg.length
  let k := (56 + 64 - (len + 1) % 64) % 64
  let bits := (8 * len) % 2 ^ 64
  msg ++ [128] ++ List.replicate k 0 ++
    (List.range 8).map (fun j => bits / 256 ^ j % 256)

/-- Fold the compression function over 64-byte chunks (fuel-driven). -/
def md5Chunks : ℕ → MD5State → List ℕ → MD5State
  | _, st, [] => st
  | 0, st, _ :: _ => st
  | fuel + 1, st, msg@(_ :: _) => md5Chunks fuel (md5Compress st (msg.take 64)) (msg.drop 64)

/-- Little-endian bytes of a 32-bit word. -/
def leBytes (x : ℕ) : List ℕ := [x % 256, x / 256 % 256, x / 65536 % 256, x / 16777216 % 256]

/-- MD5 digest of a byte list, as 16 bytes. -/
def md5Digest (msg : List ℕ) : List ℕ :=
  let padded := md5Pad msg
  let st := md5Chunks padded.length ⟨0x67452301, 0xefcdab89, 0x98badcfe, 0x10325476⟩ padded
  leBytes st.a ++ leBytes st.b ++ leBytes st.c ++ leBytes st.d

/-- Lower-case hex character for a value below 16. -/
def hexChar (n : ℕ) : Char := if n < 10 then Char.ofNat (48 + n) else Char.ofNat (87 + n)

/-- Hexadecimal digest string (`hexdigest()`). -/
def md5Hex (msg : List ℕ) : String :=
  ⟨((md5Digest msg).map (fun b => [hexChar (b / 16), hexChar (b % 16)])).join⟩

/-- UTF-8 encoding of one code point (`str.encode()` per character). -/
def utf8EncodeCp (c : Char) : List ℕ :=
  let n := c.toNat
  if n < 128 then [n]
  else if n < 2048 then [192 + n / 64, 128 + n % 64]
  else if n < 65536 then [224 + n / 4096, 128 + n / 64 % 64, 128 + n % 64]
  else [240 + n / 262144, 128 + n / 4096 % 64, 128 + n / 64 % 64, 128 + n % 64]

/-- UTF-8 bytes of a string (`content.encode()`). -/
def utf8Bytes (s : String) : List ℕ := (s.data.map utf8EncodeCp).join

/-- Article dict as consumed by `generate_fingerprint` (`headline` read with
default "", `body` checked for presence and truthiness). -/
structure DedupArticle where
  headline : Option String
  body : Option String
deriving Repr, DecidableEq

/-- Python default `str.strip()` whitespace set (ASCII). -/
def isPySpace (c : Char) : Bool :=
  c = ' ' || c = '\t' || c = '\n' || c = '\r' || c = '\x0b' || c = '\x0c'

/-- Python `s.strip()`. -/
def pyStrip (s : String) : String :=
  ⟨((s.data.dropWhile isPySpace).reverse.dropWhile isPySpace).reverse⟩

/-- Python `s[:n]` (by code points). -/
def pyTake (n : ℕ) (s : String) : String := ⟨s.data.take n⟩

/-- Content string hashed by `generate_fingerprint`:
`headline.lower().strip()`, plus `" " + body[:100].lower().strip()` when the
`body` key is present and truthy (non-empty). -/
def fingerprintContent (article : DedupArticle) : String :=
  match article.body with
  | some b =>
      if b ≠ "" then
        pyStrip (pyLower (article.headline.getD "")) ++ " " ++
          pyStrip (pyLower (pyTake 100 b))
      else pyStrip (pyLower (article.headline.getD ""))
  | none => pyStrip (pyLower (article.headline.getD ""))

/-- Embedding of `generate_fingerprint(article)`: MD5 hexdigest of the
UTF-8 encoded normalized content. -/
def generate_fingerprint (article : DedupArticle) : String :=
  md5Hex (utf8Bytes (fingerprintContent article))

/-- Normalized headline component of the fingerprint. -/
def headlineKey (a : DedupArticle) : String :=
  pyStrip (pyLower (a.headline.getD ""))

/-- Normalized body component of the fingerprint (`none` when the body is
absent or empty). -/
def bodyKey (a : DedupArticle) : Option String :=
  match a.body with
  | some b => if b ≠ "" then some (pyStrip (pyLower (pyTake 100 b))) else none
  | none => none

theorem fingerprintContent_eq (a : DedupArticle) :
    fingerprintContent a =
      match bodyKey a with
      | some s => headlineKey a ++ " " ++ s
      | none => headlineKey a := by
  unfold fingerprintContent bodyKey headlineKey
  cases a.body with
  | none => rfl
  | some b =>
      by_cases hb : b ≠ "" <;> simp [hb]

set_option maxRecDepth 400000

/-- C6 counterexample: the fingerprint is NOT the hash of
`lowercase(headline) + " " + lowercase(body[:100])` — the code also strips
surrounding whitespace.  With headline " a" and body "b" the code hashes
"a b" while the claimed formula hashes " a b", and the MD5 digests differ. -/
theorem fingerprint_formula_mismatch :
    generate_fingerprint ⟨some " a", some "b"⟩ ≠
      md5Hex (utf8Bytes (pyLower " a" ++ " " ++
        pyLower (pyTake 100 "b"))) := by
  decide

/-- C6 amended: the fingerprint is the MD5 hexdigest (a stable 128-bit hash)
of `strip(lower(headline))` followed, when the body is present and non-empty,
by a space and `strip(lower(body[:100]))`; hence it is invariant under any
change of headline or body that preserves those normalized components — in
particular under case changes and leading/trailing whitespace of the
headline, and case changes of the first 100 body characters. -/
theorem fingerprint_invariance (a1 a2 : DedupArticle)
    (hh : headlineKey a1 = headlineKey a2) (hb : bodyKey a1 = bodyKey a2) :
    generate_fingerprint a1 = generate_fingerprint a2 := by
  unfold generate_fingerprint
  rw [fingerprintContent_eq, fingerprintContent_eq, hh, hb]

/-- C6 witness: headline " Abc " with body "XYz" and headline "abc" with
body "xyz" share normalized components, so their fingerprints agree. -/
theorem fingerprint_invariance_witness :
    headlineKey ⟨some " Abc ", some "XYz"⟩ = headlineKey ⟨some "abc", some "xyz"⟩ ∧
    bodyKey ⟨some " Abc ", some "XYz"⟩ = bodyKey ⟨some "abc", some "xyz"⟩ ∧
    generate_fingerprint ⟨some " Abc ", some "XYz"⟩ =
      generate_fingerprint ⟨some "abc", some "xyz"⟩ :=
  ⟨by decide, by decide,
    fingerprint_invariance ⟨some " Abc ", some "XYz"⟩ ⟨some "abc", some "xyz"⟩
      (by decide) (by decide)⟩

/-! ## Risk propagation (`src/backend/src/risk_engine/graph_propagation.py`)

The NetworkX digraph is embedded as finite adjacency data: node list,
successor lists, edge-weight attributes and the `is_single_source` node
attribute — exactly the parts `propagate_risk` reads.  The Python dict
`propagated` is an insertion-ordered association list; the `while queue`
loop is driven by fuel, with termination proved for a fuel bound computed
from the graph (`fuelBound`). -/

/-- Supply-chain graph data read by `propagate_risk`. -/
structure SupplyGraph where
  nodes : List String
  adj : List (String × List String)
  wts : List ((String × String) × ℚ)
  singles : List String
deriving Repr, DecidableEq

/-- `G.successors(n)`. -/
def succs (G : SupplyGraph) (n : String) : List String :=
  ((G.adj.find? (fun p => p.1 == n)).map (fun p => p.2)).getD []

/-- `G[n][m].get("weight", 0.5)`. -/
def edgeWeight (G : SupplyGraph) (n m : String) : ℚ :=
  ((G.wts.find? (fun p => p.1.1 == n && p.1.2 == m)).map (fun p => p.2)).getD (1/2)

/-- `1.5 if successor is single-source else 1.0`. -/
def vulnerability (G : SupplyGraph) (m : String) : ℚ :=
  if G.singles.contains m then 3/2 else 1

/-- `propagated_score = score * dep_weight * (0.5 + vulnerability * 0.5)`. -/
def compScore (G : SupplyGraph) (s : ℚ) (n m : String) : ℚ :=
  s * edgeWeight G n m * (1/2 + vulnerability G m * (1/2))

/-- Ordered-dict lookup. -/
def getVal : List (String × ℚ) → String → Option ℚ
  | [], _ => none
  | (k, v) :: rest, key => if k == key then some v else getVal rest key

/-- Ordered-dict assignment: replace the first binding in place, or append. -/
def setVal : List (String × ℚ) → String → ℚ → List (String × ℚ)
  | [], key, v => [(key, v)]
  | (k, w) :: rest, key, v =>
      if k == key then (k, v) :: rest else (k, w) :: setVal rest key v

/-- Loop state: the `propagated` dict, the BFS queue, the visited set. -/
structure PState where
  prop : List (String × ℚ)
  queue : List (String × ℚ)
  visited : List String
deriving Repr, DecidableEq

/-- Update test `successor not in propagated or propagated[successor] < score`. -/
def updCond (p : List (String × ℚ)) (m : String) (c : ℚ) : Bool :=
  match getVal p m with
  | none => true
  | some old => decide (old < c)

/-- Inner `for successor in G.successors(node)` loop of `propagate_risk`:
threads the `propagated` dict and the queue through the successors of `n`,
whose unrounded score is `s`. -/
def expandSucc (G : SupplyGraph) (t s : ℚ) (n : String) :
    List String → List (String × ℚ) → List (String × ℚ) →
      List (String × ℚ) × List (String × ℚ)
  | [], p, q => (p, q)
  | m :: ms, p, q =>
      if t < compScore G s n m then
        if updCond p m (compScore G s n m) then
          expandSucc G t s n ms (setVal p m (pyRound (compScore G s n m) 2))
            (q ++ [(m, compScore G s n m)])
        else expandSucc G t s n ms p q
      else expandSucc G t s n ms p q

/-- One iteration of the `while queue` loop: pop, skip if visited, else
expand the successors. -/
def pstep (G : SupplyGraph) (t : ℚ) : PState → PState
  | ⟨p, [], v⟩ => ⟨p, [], v⟩
  | ⟨p, (n, s) :: rest, v⟩ =>
      if n ∈ v then ⟨p, rest, v⟩
      else
        let r := expandSucc G t s n (succs G n) p rest
        ⟨r.1, r.2, v ++ [n]⟩

/-- The `while queue` loop, driven by fuel; returns the `propagated` dict. -/
def ploop (G : SupplyGraph) (t : ℚ) : ℕ → PState → Option (List (String × ℚ))
  | 0, st => if st.queue.isEmpty then some st.prop else none
  | fuel + 1, st =>
      if st.queue.isEmpty then some st.prop
      else ploop G t fuel (pstep G t st)

/-- Fuel sufficient for any run (proved in `ploop_terminates`). -/
def fuelBound (G : SupplyGraph) : ℕ :=
  1 + (G.nodes.map (fun n => 1 + (succs G n).length)).sum

/-- Embedding of `propagate_risk(G, risk_node_id, initial_score, threshold)`.
`some` holds the returned dict; `none` would mean fuel exhaustion, which the
termination theorem rules out for closed graphs. -/
def propagate_risk (G : SupplyGraph) (risk_node_id : String)
    (initial_score : ℚ) (threshold : ℚ) : Option (List (String × ℚ)) :=
  ploop G threshold (fuelBound G)
    ⟨[(risk_node_id, initial_score)], [(risk_node_id, initial_score)], []⟩

/-- Termination measure: queue length plus the budget of unvisited nodes. -/
def mu (G : SupplyGraph) (st : PState) : ℕ :=
  st.queue.length +
    (G.nodes.map (fun n =>
      if n ∈ st.visited then 0 else 1 + (succs G n).length)).sum

theorem getVal_setVal_self (p : List (String × ℚ)) (k : String) (v : ℚ) :
    getVal (setVal p k v) k = some v := by
  induction p with
  | nil => simp [setVal, getVal]
  | cons e rest ih =>
      rw [setVal]
      by_cases he : (e.1 == k) = true
      · simp [getVal, he]
      · simp only [he, Bool.false_eq_true, if_false, getVal, ih]

theorem getVal_setVal_other (p : List (String × ℚ)) (k k2 : String) (v : ℚ)
    (hne : k2 ≠ k) : getVal (setVal p k v) k2 = getVal p k2 := by
  have hk2 : ¬ (k == k2) = true := by
    simp only [beq_iff_eq]
    exact fun h => hne h.symm
  induction p with
  | nil => simp [setVal, getVal, hk2]
  | cons e rest ih =>
      rw [setVal]
      by_cases he : (e.1 == k) = true
      · have hek : e.1 = k := by simpa using he
        have hkk2 : ¬ k = k2 := fun h => hne h.symm
        simp [getVal, he, hek, hkk2]
      · simp only [he, Bool.false_eq_true, if_false, getVal, ih]

/-- Exact multiples of 1/100 (every value the loop stores after rounding). -/
def IsCent (x : ℚ) : Prop := ∃ z : ℤ, x = (z : ℚ) / 100

/-- How one dict entry can evolve in a single update: unchanged, or replaced
by a 2-decimal rounding of a strictly larger unrounded score. -/
def StepMono (v v2 : ℚ) : Prop :=
  v2 = v ∨ (v - 1/200 < v2 ∧ (IsCent v → v ≤ v2) ∧ IsCent v2)

theorem stepMono_refl (v : ℚ) : StepMono v v := Or.inl rfl

theorem isCent_pyRound_two (q : ℚ) : IsCent (pyRound q 2) :=
  ⟨pyRnd (q * 10 ^ 2), by rw [pyRound]; norm_num⟩

theorem stepMono_update {v ps : ℚ} (h : v < ps) : StepMono v (pyRound ps 2) := by
  refine Or.inr ⟨?_, ?_, isCent_pyRound_two ps⟩
  · calc v - 1/200 < ps - 1/200 := by linarith
      _ ≤ pyRound ps 2 := le_pyRound_two ps
  · rintro ⟨z, hz⟩
    exact pyRound_two_ge_of_lt hz h

theorem stepMono_trans {a b c : ℚ} (h1 : StepMono a b) (h2 : StepMono b c) :
    StepMono a c := by
  rcases h1 with rfl | ⟨h1a, h1b, h1c⟩
  · exact h2
  · rcases h2 with rfl | ⟨h2a, h2b, h2c⟩
    · exact Or.inr ⟨h1a, h1b, h1c⟩
    · have hbc : b ≤ c := h2b h1c
      exact Or.inr ⟨by linarith, fun hca => le_trans (h1b hca) hbc, h2c⟩

theorem updCond_lt {p : List (String × ℚ)} {m : String} {c old : ℚ}
    (hg : getVal p m = some old) (hu : updCond p m c = true) : old < c := by
  unfold updCond at hu
  rw [hg] at hu
  simpa using hu

theorem expandSucc_queue_len (G : SupplyGraph) (t s : ℚ) (n : String) :
    ∀ (ms : List String) (p q : List (String × ℚ)),
      (expandSucc G t s n ms p q).2.length ≤ q.length + ms.length := by
  intro ms
  induction ms with
  | nil => intro p q; simp [expandSucc]
  | cons m ms ih =>
      intro p q
      rw [expandSucc]
      split_ifs with hc hu
      · have h := ih (setVal p m (pyRound (compScore G s n m) 2))
          (q ++ [(m, compScore G s n m)])
        simp only [List.length_append, List.length_cons] at h ⊢
        simp at h
        omega
      · have h := ih p q
        simp only [List.length_cons]
        omega
      · have h := ih p q
        simp only [List.length_cons]
        omega

theorem expandSucc_queue_mem (G : SupplyGraph) (t s : ℚ) (n : String) :
    ∀ (ms : List String) (p q : List (String × ℚ)),
      ∀ e ∈ (expandSucc G t s n ms p q).2,
        e ∈ q ∨ (e.1 ∈ ms ∧ e.2 = compScore G s n e.1 ∧ t < e.2) := by
  intro ms
  induction ms with
  | nil => intro p q e he; exact Or.inl (by simpa [expandSucc] using he)
  | cons m ms ih =>
      intro p q e he
      rw [expandSucc] at he
      split_ifs at he with hc hu
      · rcases ih _ _ e he with h1 | ⟨h2a, h2b, h2c⟩
        · rcases List.mem_append.1 h1 with hq1 | hq2
          · exact Or.inl hq1
          · have he2 : e = (m, compScore G s n m) := by simpa using hq2
            subst he2
            exact Or.inr ⟨by simp, rfl, hc⟩
        · exact Or.inr ⟨by simp [h2a], h2b, h2c⟩
      · rcases ih _ _ e he with h1 | ⟨h2a, h2b, h2c⟩
        · exact Or.inl h1
        · exact Or.inr ⟨by simp [h2a], h2b, h2c⟩
      · rcases ih _ _ e he with h1 | ⟨h2a, h2b, h2c⟩
        · exact Or.inl h1
        · exact Or.inr ⟨by simp [h2a], h2b, h2c⟩

theorem expandSucc_prop_mono (G : SupplyGraph) (t s : ℚ) (n : String) :
    ∀ (ms : List String) (p q : List (String × ℚ)) (k : String) (v : ℚ),
      getVal p k = some v →
      ∃ v2, getVal (expandSucc G t s n ms p q).1 k = some v2 ∧ StepMono v v2 := by
  intro ms
  induction ms with
  | nil => intro p q k v h; exact ⟨v, by simpa [expandSucc] using h, stepMono_refl v⟩
  | cons m ms ih =>
      intro p q k v h
      rw [expandSucc]
      split_ifs with hc hu
      · by_cases hkm : k = m
        · subst hkm
          have hlt : v < compScore G s n k := updCond_lt h hu
          have h2 : getVal (setVal p k (pyRound (compScore G s n k) 2)) k =
              some (pyRound (compScore G s n k) 2) := getVal_setVal_self p k _
          obtain ⟨v2, hv2, hm⟩ := ih _ _ k (pyRound (compScore G s n k) 2) h2
          exact ⟨v2, hv2, stepMono_trans (stepMono_update hlt) hm⟩
        · have h2 : getVal (setVal p m (pyRound (compScore G s n m) 2)) k = some v := by
            rw [getVal_setVal_other p m k _ hkm]
            exact h
          exact ih _ _ k v h2
      · exact ih _ _ k v h
      · exact ih _ _ k v h

theorem expandSucc_prop_new (G : SupplyGraph) (t s : ℚ) (n : String) :
    ∀ (ms : List String) (p q : List (String × ℚ)) (k : String) (v : ℚ),
      getVal (expandSucc G t s n ms p q).1 k = some v →
      getVal p k = some v ∨ (∃ ps, t < ps ∧ v = pyRound ps 2) := by
  intro ms
  induction ms with
  | nil => intro p q k v h; exact Or.inl (by simpa [expandSucc] using h)
  | cons m ms ih =>
      intro p q k v h
      rw [expandSucc] at h
      split_ifs at h with hc hu
      · rcases ih _ _ k v h with h1 | h1
        · by_cases hkm : k = m
          · subst hkm
            rw [getVal_setVal_self] at h1
            have hv : v = pyRound (compScore G s n k) 2 := by injection h1.symm
            exact Or.inr ⟨compScore G s n k, hc, hv⟩
          · rw [getVal_setVal_other p m k _ hkm] at h1
            exact Or.inl h1
        · exact Or.inr h1
      · exact ih _ _ k v h
      · exact ih _ _ k v h

theorem sum_visited_mono (nodes v : List String) (n : String) (w : String → ℕ) :
    (nodes.map (fun x => if x ∈ v ++ [n] then 0 else w x)).sum ≤
      (nodes.map (fun x => if x ∈ v then 0 else w x)).sum := by
  induction nodes with
  | nil => simp
  | cons x xs ih =>
      simp only [List.map_cons, List.sum_cons]
      refine Nat.add_le_add ?_ ih
      by_cases hx : x ∈ v
      · simp [hx, List.mem_append]
      · simp only [hx, Bool.false_eq_true, if_false]
        split_ifs <;> omega

theorem sum_visited_drop (nodes v : List String) (n : String) (w : String → ℕ)
    (hn : n ∈ nodes) (hnv : n ∉ v) :
    (nodes.map (fun x => if x ∈ v ++ [n] then 0 else w x)).sum + w n ≤
      (nodes.map (fun x => if x ∈ v then 0 else w x)).sum := by
  induction nodes with
  | nil => simp at hn
  | cons x xs ih =>
      simp only [List.map_cons, List.sum_cons]
      by_cases hxn : x = n
      · subst hxn
        have h1 : (x ∈ v ++ [x]) := List.mem_append.2 (Or.inr (by simp))
        have hmono := sum_visited_mono xs v x w
        simp only [h1, if_true, hnv, Bool.false_eq_true, if_false]
        omega
      · have hn2 : n ∈ xs := by
          rcases List.mem_cons.1 hn with h | h
          · exact absurd h.symm hxn
          · exact h
        have := ih hn2
        have hterm : (if x ∈ v ++ [n] then 0 else w x) = (if x ∈ v then 0 else w x) := by
          by_cases hxv : x ∈ v
          · simp [hxv, List.mem_append]
          · have : ¬ x ∈ v ++ [n] := by
              simp [List.mem_append, hxv, hxn]
            simp [hxv, this]
        rw [hterm]
        omega

theorem mu_pstep_lt (G : SupplyGraph) (t : ℚ) (st : PState)
    (hne : st.queue ≠ [])
    (hclosed : ∀ e ∈ st.queue, e.1 ∈ G.nodes) :
    mu G (pstep G t st) < mu G st := by
  obtain ⟨p, queue, v⟩ := st
  cases queue with
  | nil => exact absurd rfl hne
  | cons e rest =>
      obtain ⟨n, s⟩ := e
      by_cases hv : n ∈ v
      · simp only [pstep, hv, if_true, mu, List.length_cons]
        omega
      · simp only [pstep, hv, Bool.false_eq_true, if_false, mu, List.length_cons]
        have hq := expandSucc_queue_len G t s n (succs G n) p rest
        have hn : n ∈ G.nodes := by
          have := hclosed (n, s) (by simp)
          simpa using this
        have hdrop := sum_visited_drop G.nodes v n
          (fun x => 1 + (succs G x).length) hn hv
        simp only at hdrop hq ⊢
        omega

theorem pstep_closed (G : SupplyGraph) (t : ℚ) (st : PState)
    (hclosed : ∀ e ∈ st.queue, e.1 ∈ G.nodes)
    (hadj : ∀ n m, m ∈ succs G n → m ∈ G.nodes) :
    ∀ e ∈ (pstep G t st).queue, e.1 ∈ G.nodes := by
  obtain ⟨p, queue, v⟩ := st
  cases queue with
  | nil => simp [pstep]
  | cons e0 rest =>
      obtain ⟨n, s⟩ := e0
      by_cases hv : n ∈ v
      · simp only [pstep, hv, if_true]
        intro e he
        exact hclosed e (by simp [he])
      · simp only [pstep, hv, Bool.false_eq_true, if_false]
        intro e he
        rcases expandSucc_queue_mem G t s n (succs G n) p rest e he with h1 | ⟨h2, -, -⟩
        · exact hclosed e (by simp [h1])
        · exact hadj n e.1 h2

theorem ploop_terminates (G : SupplyGraph) (t : ℚ)
    (hadj : ∀ n m, m ∈ succs G n → m ∈ G.nodes) :
    ∀ (fuel : ℕ) (st : PState),
      (∀ e ∈ st.queue, e.1 ∈ G.nodes) → mu G st ≤ fuel →
      (ploop G t fuel st).isSome = true := by
  intro fuel
  induction fuel with
  | zero =>
      intro st hclosed hmu
      have hlen : st.queue.length = 0 := by
        have : st.queue.length ≤ mu G st := by unfold mu; omega
        omega
      have hempty : st.queue.isEmpty = true := by
        cases hq : st.queue with
        | nil => rfl
        | cons a l => rw [hq] at hlen; simp at hlen
      rw [ploop, hempty]
      simp
  | succ fuel ih =>
      intro st hclosed hmu
      rw [ploop]
      by_cases he : st.queue.isEmpty = true
      · simp [he]
      · simp only [he, Bool.false_eq_true, if_false]
        have hne : st.queue ≠ [] := by
          intro h
          exact he (by simp [h])
        apply ih (pstep G t st) (pstep_closed G t st hclosed hadj)
        have := mu_pstep_lt G t st hne hclosed
        omega

/-- Closure of the adjacency data, in a form a kernel evaluation can check. -/
theorem succs_closed_of_all (G : SupplyGraph)
    (h : G.adj.all (fun p => p.2.all (fun m => G.nodes.contains m)) = true) :
    ∀ n m, m ∈ succs G n → m ∈ G.nodes := by
  intro n m hm
  unfold succs at hm
  cases hf : G.adj.find? (fun p => p.1 == n) with
  | none => rw [hf] at hm; simp at hm
  | some pr =>
      rw [hf] at hm
      simp at hm
      have hpr : pr ∈ G.adj := List.mem_of_find?_eq_some hf
      have h2 := (List.all_eq_true.1 h) pr hpr
      have h3 := (List.all_eq_true.1 h2) m hm
      simpa using h3

/-- C9: `propagate_risk` terminates (the fuelled loop completes) on every
finite graph whose successor lists stay inside the node set, for every
origin, score and threshold — cycles included, thanks to the visited set. -/
theorem propagate_risk_terminates (G : SupplyGraph) (origin : String)
    (s0 t : ℚ) (horigin : origin ∈ G.nodes)
    (hadj : ∀ n m, m ∈ succs G n → m ∈ G.nodes) :
    (propagate_risk G origin s0 t).isSome = true := by
  unfold propagate_risk
  apply ploop_terminates G t hadj
  · intro e he
    have he2 : e = (origin, s0) := by simpa using he
    rw [he2]
    exact horigin
  · unfold mu fuelBound
    simp

/-- C9 witness: a 2-node cyclic graph (A → B → A, both single-source,
weight 1.0); the run terminates. -/
theorem propagate_terminates_witness :
    ("A" ∈ (⟨["A", "B"], [("A", ["B"]), ("B", ["A"])],
        [(("A", "B"), 1), (("B", "A"), 1)], ["A", "B"]⟩ : SupplyGraph).nodes) ∧
    (propagate_risk
      ⟨["A", "B"], [("A", ["B"]), ("B", ["A"])],
        [(("A", "B"), 1), (("B", "A"), 1)], ["A", "B"]⟩
      "A" 4 1).isSome = true :=
  ⟨by decide,
    propagate_risk_terminates _ "A" 4 1 (by decide)
      (succs_closed_of_all _ (by decide))⟩

theorem ploop_inv (G : SupplyGraph) (t : ℚ) (Inv : PState → Prop)
    (hstep : ∀ st, st.queue ≠ [] → Inv st → Inv (pstep G t st)) :
    ∀ (fuel : ℕ) (st : PState) (r : List (String × ℚ)),
      Inv st → ploop G t fuel st = some r → ∃ st2, Inv st2 ∧ st2.prop = r := by
  intro fuel
  induction fuel with
  | zero =>
      intro st r hinv hr
      rw [ploop] at hr
      by_cases he : st.queue.isEmpty = true
      · rw [if_pos he] at hr
        exact ⟨st, hinv, Option.some.inj hr⟩
      · rw [if_neg he] at hr
        exact absurd hr (by simp)
  | succ fuel ih =>
      intro st r hinv hr
      rw [ploop] at hr
      by_cases he : st.queue.isEmpty = true
      · rw [if_pos he] at hr
        exact ⟨st, hinv, Option.some.inj hr⟩
      · rw [if_neg he] at hr
        have hne : st.queue ≠ [] := fun h => he (by simp [h])
        exact ih _ r (hstep st hne hinv) hr

/-- A strengthening of `expandSucc_prop_new`: a value present after the inner
loop was already present, or is the 2-decimal rounding of the successor score
computed in this very expansion. -/
theorem expandSucc_prop_new2 (G : SupplyGraph) (t s : ℚ) (n : String) :
    ∀ (ms : List String) (p q : List (String × ℚ)) (k : String) (v : ℚ),
      getVal (expandSucc G t s n ms p q).1 k = some v →
      getVal p k = some v ∨
        (t < compScore G s n k ∧ v = pyRound (compScore G s n k) 2) := by
  intro ms
  induction ms with
  | nil => intro p q k v h; exact Or.inl (by simpa [expandSucc] using h)
  | cons m ms ih =>
      intro p q k v h
      rw [expandSucc] at h
      split_ifs at h with hc hu
      · rcases ih _ _ k v h with h1 | h1
        · by_cases hkm : k = m
          · subst hkm
            rw [getVal_setVal_self] at h1
            have hv : v = pyRound (compScore G s n k) 2 := by injection h1.symm
            exact Or.inr ⟨hc, hv⟩
          · rw [getVal_setVal_other p m k _ hkm] at h1
            exact Or.inl h1
        · exact Or.inr h1
      · exact ih _ _ k v h
      · exact ih _ _ k v h

/-- Weighted-score bound: with nonnegative edge weights at most 0.8, the
propagated score of a successor never exceeds the parent score. -/
theorem compScore_bounds (G : SupplyGraph)
    (hw : ∀ a b, 0 ≤ edgeWeight G a b ∧ edgeWeight G a b ≤ 4/5)
    {s : ℚ} (hs : 0 ≤ s) (n m : String) :
    0 ≤ compScore G s n m ∧ compScore G s n m ≤ s := by
  obtain ⟨hw0, hw1⟩ := hw n m
  unfold compScore vulnerability
  split_ifs with hm
  · constructor <;> nlinarith
  · constructor <;> nlinarith

/-- Per-pop monotonicity of stored entries. -/
theorem pstep_prop_mono (G : SupplyGraph) (t : ℚ) (st : PState)
    (k : String) (v : ℚ) (h : getVal st.prop k = some v) :
    ∃ v2, getVal (pstep G t st).prop k = some v2 ∧ StepMono v v2 := by
  obtain ⟨p, queue, vis⟩ := st
  cases queue with
  | nil => exact ⟨v, h, stepMono_refl v⟩
  | cons e0 rest =>
      obtain ⟨n, s⟩ := e0
      by_cases hv : n ∈ vis
      · simp only [pstep, hv, if_true]
        exact ⟨v, h, stepMono_refl v⟩
      · simp only [pstep, hv, Bool.false_eq_true, if_false]
        exact expandSucc_prop_mono G t s n (succs G n) p rest k v h

/-- C5 amended: provided the initial score is nonnegative and every edge
weight lies in [0, 0.8] (so that weight × vulnerability factor ≤ 1), every
value in the returned map is at most `s0 + 1/200` — the unrounded propagated
scores never exceed `s0`, and the stored values exceed it only by the
2-decimal rounding slack; moreover, in any single pop of the loop a stored
entry never decreases by 1/200 or more, and an entry that is an exact
multiple of 1/100 (every entry the loop itself wrote) never decreases at
all. -/
theorem propagate_risk_bounds (G : SupplyGraph) (origin : String)
    (s0 t : ℚ) (r : List (String × ℚ))
    (hw : ∀ a b, 0 ≤ edgeWeight G a b ∧ edgeWeight G a b ≤ 4/5)
    (hs0 : 0 ≤ s0)
    (hr : propagate_risk G origin s0 t = some r) :
    (∀ k v, getVal r k = some v → v ≤ s0 + 1/200) ∧
    (∀ (st : PState) (k : String) (v : ℚ), getVal st.prop k = some v →
      ∃ v2, getVal (pstep G t st).prop k = some v2 ∧
        v - 1/200 < v2 ∧ (IsCent v → v ≤ v2)) := by
  constructor
  · have hmain := ploop_inv G t (fun st =>
      (∀ k v, getVal st.prop k = some v → v ≤ s0 + 1/200) ∧
      (∀ e ∈ st.queue, 0 ≤ e.2 ∧ e.2 ≤ s0)) ?_ (fuelBound G)
      ⟨[(origin, s0)], [(origin, s0)], []⟩ r ?_ hr
    · obtain ⟨st2, hinv2, hprop⟩ := hmain
      intro k v hget
      exact hinv2.1 k v (by rw [hprop]; exact hget)
    · intro st hne hinv
      obtain ⟨p, queue, vis⟩ := st
      cases queue with
      | nil => exact hinv
      | cons e0 rest =>
          obtain ⟨n, s⟩ := e0
          obtain ⟨hs_lo, hs_hi⟩ := hinv.2 (n, s) (by simp)
          by_cases hv : n ∈ vis
          · simp only [pstep, hv, if_true]
            exact ⟨hinv.1, fun e he => hinv.2 e (by simp [he])⟩
          · simp only [pstep, hv, Bool.false_eq_true, if_false]
            constructor
            · intro k v hget
              rcases expandSucc_prop_new2 G t s n (succs G n) p rest k v hget
                with h1 | ⟨hlt, hval⟩
              · exact hinv.1 k v h1
              · have hcs := (compScore_bounds G hw hs_lo n k).2
                calc v = pyRound (compScore G s n k) 2 := hval
                  _ ≤ compScore G s n k + 1/200 := pyRound_two_le _
                  _ ≤ s + 1/200 := by linarith
                  _ ≤ s0 + 1/200 := by linarith
            · intro e he
              rcases expandSucc_queue_mem G t s n (succs G n) p rest e he
                with h1 | ⟨hmem, hval, hlt⟩
              · exact hinv.2 e (by simp [h1])
              · obtain ⟨h0, h1b⟩ := compScore_bounds G hw hs_lo n e.1
                rw [hval]
                exact ⟨h0, by linarith⟩
    · constructor
      · intro k v hget
        rw [getVal] at hget
        split_ifs at hget with hk
        · have : v = s0 := by injection hget.symm
          rw [this]
          linarith
        · rw [getVal] at hget
          exact absurd hget (by simp)
      · intro e he
        have : e = (origin, s0) := by simpa using he
        rw [this]
        exact ⟨hs0, le_refl s0⟩
  · intro st k v h
    obtain ⟨v2, hv2, hm⟩ := pstep_prop_mono G t st k v h
    rcases hm with rfl | ⟨ha, hb, -⟩
    · exact ⟨v2, hv2, by linarith, fun _ => le_refl v2⟩
    · exact ⟨v2, hv2, ha, hb⟩

/-- C10 amended: the returned map always contains the origin (though a cycle
re-reaching the origin above its current entry can overwrite the initial
unrounded score); every other key is mapped to the 2-decimal rounding of a
propagated score that strictly exceeded the threshold, so every non-origin
value is greater than `t - 1/200` (but not necessarily greater than `t`,
because of rounding). -/
theorem propagate_risk_result_shape (G : SupplyGraph) (origin : String)
    (s0 t : ℚ) (r : List (String × ℚ))
    (hr : propagate_risk G origin s0 t = some r) :
    (∃ v, getVal r origin = some v) ∧
    (∀ k v, getVal r k = some v → k ≠ origin →
      ∃ ps, t < ps ∧ v = pyRound ps 2 ∧ t - 1/200 < v) := by
  have hmain := ploop_inv G t (fun st =>
      (∃ v, getVal st.prop origin = some v) ∧
      (∀ k v, getVal st.prop k = some v → k ≠ origin →
        ∃ ps, t < ps ∧ v = pyRound ps 2)) ?_ (fuelBound G)
      ⟨[(origin, s0)], [(origin, s0)], []⟩ r ?_ hr
  · obtain ⟨st2, hinv2, hprop⟩ := hmain
    constructor
    · obtain ⟨v, hv⟩ := hinv2.1
      exact ⟨v, by rw [← hprop]; exact hv⟩
    · intro k v hget hko
      obtain ⟨ps, hps1, hps2⟩ := hinv2.2 k v (by rw [hprop]; exact hget) hko
      refine ⟨ps, hps1, hps2, ?_⟩
      have := le_pyRound_two ps
      rw [hps2]
      linarith
  · intro st hne hinv
    obtain ⟨p, queue, vis⟩ := st
    cases queue with
    | nil => exact hinv
    | cons e0 rest =>
        obtain ⟨n, s⟩ := e0
        by_cases hv : n ∈ vis
        · simpa only [pstep, hv, if_true] using hinv
        · simp only [pstep, hv, Bool.false_eq_true, if_false]
          constructor
          · obtain ⟨v, hv0⟩ := hinv.1
            obtain ⟨v2, hv2, -⟩ :=
              expandSucc_prop_mono G t s n (succs G n) p rest origin v hv0
            exact ⟨v2, hv2⟩
          · intro k v hget hko
            rcases expandSucc_prop_new G t s n (succs G n) p rest k v hget
              with h1 | ⟨ps, hps1, hps2⟩
            · exact hinv.2 k v h1 hko
            · exact ⟨ps, hps1, hps2⟩
  · constructor
    · exact ⟨s0, by simp [getVal]⟩
    · intro k v hget hko
      rw [getVal] at hget
      split_ifs at hget with hk
      · have hk2 : origin = k := by simpa using hk
        exact absurd hk2.symm hko
      · rw [getVal] at hget
        exact absurd hget (by simp)

theorem edgeWeight_bounds_of_forall (G : SupplyGraph)
    (h : ∀ e ∈ G.wts, 0 ≤ e.2 ∧ e.2 ≤ 4/5) :
    ∀ a b, 0 ≤ edgeWeight G a b ∧ edgeWeight G a b ≤ 4/5 := by
  intro a b
  unfold edgeWeight
  cases hf : G.wts.find? (fun p => p.1.1 == a && p.1.2 == b) with
  | none =>
      simp only [Option.map_none', Option.getD_none]
      norm_num
  | some e =>
      simp only [Option.map_some', Option.getD_some]
      exact h e (List.mem_of_find?_eq_some hf)

/-- C5 counterexample: an edge of weight 1.0 into a single-source node
multiplies the score by 1.25, so the successor "A" ends up with 5.0 even
though the origin score was only 4.0 — propagation can amplify, refuting
"the score assigned to any node ≤ the initial origin score". -/
theorem propagation_amplifies :
    propagate_risk ⟨["O", "A"], [("O", ["A"])], [(("O", "A"), 1)], ["A"]⟩
        "O" 4 1 = some [("O", 4), ("A", 5)] ∧ (4 : ℚ) < 5 := by
  refine ⟨?_, by norm_num⟩
  simp [propagate_risk, ploop, pstep, expandSucc, updCond, compScore, edgeWeight,
    vulnerability, succs, getVal, setVal, fuelBound, List.find?_cons]
  try norm_num [pyRound, pyRnd]
  try simp [ploop, pstep, expandSucc, updCond, compScore, edgeWeight,
    vulnerability, succs, getVal, setVal, List.find?_cons]
  try norm_num [pyRound, pyRnd]
  try simp [ploop, pstep, expandSucc, updCond, compScore, edgeWeight,
    vulnerability, succs, getVal, setVal, List.find?_cons]
  try norm_num [pyRound, pyRnd]

/-- C10 counterexample: a self-loop of weight 0.8002 on a single-source
origin re-reaches the origin with score 2.004501 > 2.004, overwriting the
origin entry with round(2.004501, 2) = 2.0 — the returned map does NOT keep
the origin at the unrounded initial score 2.004. -/
theorem propagation_origin_overwritten :
    propagate_risk ⟨["O"], [("O", ["O"])], [(("O", "O"), 4001/5000)], ["O"]⟩
        "O" (501/250) 0 = some [("O", 2)] ∧ (2 : ℚ) ≠ 501/250 := by
  refine ⟨?_, by norm_num⟩
  simp [propagate_risk, ploop, pstep, expandSucc, updCond, compScore, edgeWeight,
    vulnerability, succs, getVal, setVal, fuelBound, List.find?_cons]
  try norm_num [pyRound, pyRnd]
  try simp [ploop, pstep, expandSucc, updCond, compScore, edgeWeight,
    vulnerability, succs, getVal, setVal, List.find?_cons]
  try norm_num [pyRound, pyRnd]
  try simp [ploop, pstep, expandSucc, updCond, compScore, edgeWeight,
    vulnerability, succs, getVal, setVal, List.find?_cons]
  try norm_num [pyRound, pyRnd]

/-- C5 witness: weights at most 0.8 on a two-node chain; the run yields
{O: 4, A: 4} and all values stay within `s0 + 1/200`. -/
theorem propagate_bounds_witness :
    ((0 : ℚ) ≤ 4) ∧
    ((∀ k v, getVal [("O", 4), ("A", 4)] k = some v → v ≤ 4 + 1/200) ∧
      (∀ (st : PState) (k : String) (v : ℚ), getVal st.prop k = some v →
        ∃ v2, getVal (pstep
            ⟨["O", "A"], [("O", ["A"])], [(("O", "A"), 4/5)], ["A"]⟩
            1 st).prop k = some v2 ∧
          v - 1/200 < v2 ∧ (IsCent v → v ≤ v2))) := by
  have hr : propagate_risk
      ⟨["O", "A"], [("O", ["A"])], [(("O", "A"), 4/5)], ["A"]⟩
      "O" 4 1 = some [("O", 4), ("A", 4)] := by
    simp [propagate_risk, ploop, pstep, expandSucc, updCond, compScore, edgeWeight,
      vulnerability, succs, getVal, setVal, fuelBound, List.find?_cons]
    try norm_num [pyRound, pyRnd]
    try simp [ploop, pstep, expandSucc, updCond, compScore, edgeWeight,
      vulnerability, succs, getVal, setVal, List.find?_cons]
    try norm_num [pyRound, pyRnd]
    try simp [ploop, pstep, expandSucc, updCond, compScore, edgeWeight,
      vulnerability, succs, getVal, setVal, List.find?_cons]
    try norm_num [pyRound, pyRnd]
  refine ⟨by norm_num, ?_⟩
  exact propagate_risk_bounds _ "O" 4 1 _
    (edgeWeight_bounds_of_forall _ (by
      intro e he
      simp only [List.mem_singleton] at he
      subst he
      norm_num))
    (by norm_num) hr

/-- C10 witness: on the two-node amplifying chain the final map contains the
origin, and the non-origin entry 5.0 is the rounding of a propagated score
above the threshold 1. -/
theorem propagate_shape_witness :
    propagate_risk ⟨["O", "A"], [("O", ["A"])], [(("O", "A"), 1)], ["A"]⟩
        "O" 4 1 = some [("O", 4), ("A", 5)] ∧
    ((∃ v, getVal [("O", 4), ("A", 5)] "O" = some v) ∧
      (∀ k v, getVal [("O", 4), ("A", 5)] k = some v → k ≠ "O" →
        ∃ ps, (1 : ℚ) < ps ∧ v = pyRound ps 2 ∧ (1 : ℚ) - 1/200 < v)) := by
  have hr : propagate_risk
      ⟨["O", "A"], [("O", ["A"])], [(("O", "A"), 1)], ["A"]⟩
      "O" 4 1 = some [("O", 4), ("A", 5)] := by
    simp [propagate_risk, ploop, pstep, expandSucc, updCond, compScore, edgeWeight,
      vulnerability, succs, getVal, setVal, fuelBound, List.find?_cons]
    try norm_num [pyRound, pyRnd]
    try simp [ploop, pstep, expandSucc, updCond, compScore, edgeWeight,
      vulnerability, succs, getVal, setVal, List.find?_cons]
    try norm_num [pyRound, pyRnd]
    try simp [ploop, pstep, expandSucc, updCond, compScore, edgeWeight,
      vulnerability, succs, getVal, setVal, List.find?_cons]
    try norm_num [pyRound, pyRnd]
  exact ⟨hr, propagate_risk_result_shape _ "O" 4 1 _ hr⟩

end AISCRA
